import Mathlib

/-!
Verification of the asocket multiplexing layer (`adb/sockets.cpp`).

The development shallowly embeds the data model of the source file: packets
(`APacket`), endpoints (`ASocket`) held in an arena keyed by handles, the two
registry lists, and an event trace recording the observable side effects
(`send_packet`, `SendOkay`/`SendFail`, `fdevent_*` calls, process exit).
Stateful C functions become functions from `World` to `World`; the
collaborator hooks the source treats as external (`handle_host_request`,
`host_service_to_socket`, transport queries, `adb_write` results) are supplied
as explicit environments and oracles.
-/

/-- Protocol command of an outbound packet header.  The numeric `A_OPEN`,
`A_OKAY`, `A_WRTE`, `A_CLSE` constants live in the external `adb.h` header;
only their identity matters here.  `zero` is the calloc default a fresh packet
from `get_apacket` carries before it is stamped. -/
inductive ACmd
  | zero
  | aOpen
  | aOkay
  | aWrte
  | aClse
deriving DecidableEq, Repr

/-- An `apacket`: the protocol header fields together with the data buffer,
the read cursor `ptr` (an offset into `data`) and the remaining byte count
`len`, exactly the fields `sockets.cpp` manipulates. -/
structure APacket where
  cmd : ACmd
  arg0 : Nat
  arg1 : Nat
  dataLength : Nat
  data : List Char
  ptr : Nat
  len : Nat
deriving DecidableEq, Repr

/-- The `enqueue` slot of the function-pointer vtable of an `asocket`. -/
inductive EnqueueFn
  | localE
  | remoteE
  | smartE
deriving DecidableEq, Repr

/-- The `ready` slot of the vtable (`local_socket_ready`,
`remote_socket_ready`, `smart_socket_ready`, `local_socket_ready_notify`). -/
inductive ReadyFn
  | localR
  | remoteR
  | smartR
  | localRNotify
deriving DecidableEq, Repr

/-- The `shutdown` slot of the vtable: either NULL or
`remote_socket_shutdown`. -/
inductive ShutdownFn
  | noneS
  | remoteS
deriving DecidableEq, Repr

/-- The `close` slot of the vtable (`local_socket_close`,
`remote_socket_close`, `smart_socket_close`, `local_socket_close_notify`). -/
inductive CloseFn
  | localC
  | remoteC
  | smartC
  | localCNotify
deriving DecidableEq, Repr

/-- An `asocket`.  `peer` and `transport` are references, modelled as the
peer's arena handle and an abstract transport identifier.  `readArmed` and
`writeArmed` are the `FDE_READ` / `FDE_WRITE` bits of `fde.state`. -/
structure ASocket where
  id : Nat
  fd : Int
  peer : Option Nat
  transport : Option Nat
  pkts : List APacket
  closing : Bool
  hasWriteError : Bool
  exitOnClose : Bool
  readArmed : Bool
  writeArmed : Bool
  enqueueFn : EnqueueFn
  readyFn : ReadyFn
  shutdownFn : ShutdownFn
  closeFn : CloseFn
deriving DecidableEq, Repr

/-- Observable side effects, in program order. -/
inductive Ev
  | sendPacket (cmd : ACmd) (arg0 arg1 dataLength : Nat) (payload : List Char)
      (transport : Option Nat)
  | sendOkay (fd : Int)
  | sendFail (fd : Int) (msg : List Char)
  | fdeAddRead (handle : Nat)
  | fdeAddWrite (handle : Nat)
  | fdeDelRead (handle : Nat)
  | fdeDelWrite (handle : Nat)
  | fdeRemove (handle : Nat)
  | adbWrite (fd : Int) (count : Nat)
  | processExit (code : Nat)
  | fatalErr
deriving DecidableEq, Repr

/-- The process-wide state: the arena of live sockets (handle-keyed), the
main registry list `local_socket_list`, the `local_socket_closing_list`, and
the trace of emitted side effects. -/
structure World where
  sock : List (Nat × ASocket)
  mainList : List Nat
  closingList : List Nat
  trace : List Ev
deriving DecidableEq, Repr

/-- Look a handle up in the arena. -/
def lookupSock : List (Nat × ASocket) → Nat → Option ASocket
  | [], _ => none
  | e :: rest, h => if e.1 = h then some e.2 else lookupSock rest h

/-- Overwrite the entry for a handle (no-op when absent). -/
def setEntry : List (Nat × ASocket) → Nat → ASocket → List (Nat × ASocket)
  | [], _, _ => []
  | e :: rest, h, s => if e.1 = h then (h, s) :: rest else e :: setEntry rest h s

/-- Drop the entry for a handle: the socket's storage is freed. -/
def dropEntry : List (Nat × ASocket) → Nat → List (Nat × ASocket)
  | [], _ => []
  | e :: rest, h => if e.1 = h then dropEntry rest h else e :: dropEntry rest h

def World.get (w : World) (h : Nat) : Option ASocket :=
  lookupSock w.sock h

def World.set (w : World) (h : Nat) (s : ASocket) : World :=
  { w with sock := setEntry w.sock h s }

def World.free (w : World) (h : Nat) : World :=
  { w with sock := dropEntry w.sock h }

def World.emit (w : World) (e : Ev) : World :=
  { w with trace := w.trace ++ [e] }

/- ### Arena lemmas -/

theorem lookup_set_eq (l : List (Nat × ASocket)) (h : Nat) (s : ASocket) :
    lookupSock (setEntry l h s) h = (lookupSock l h).map (fun _ => s) := by
  induction l with
  | nil => rfl
  | cons e rest ih =>
    by_cases he : e.1 = h <;> simp [setEntry, lookupSock, he, ih]

theorem lookup_set_ne (l : List (Nat × ASocket)) (h h' : Nat) (s : ASocket)
    (hne : h' ≠ h) : lookupSock (setEntry l h s) h' = lookupSock l h' := by
  induction l with
  | nil => rfl
  | cons e rest ih =>
    by_cases he : e.1 = h
    · subst he
      simp [setEntry, lookupSock, Ne.symm hne, ih]
    · by_cases he' : e.1 = h' <;> simp [setEntry, lookupSock, he, he', hne, ih]

theorem lookup_drop_eq (l : List (Nat × ASocket)) (h : Nat) :
    lookupSock (dropEntry l h) h = none := by
  induction l with
  | nil => rfl
  | cons e rest ih =>
    by_cases he : e.1 = h <;> simp [dropEntry, lookupSock, he, ih]

theorem lookup_drop_ne (l : List (Nat × ASocket)) (h h' : Nat) (hne : h' ≠ h) :
    lookupSock (dropEntry l h) h' = lookupSock l h' := by
  induction l with
  | nil => rfl
  | cons e rest ih =>
    by_cases he : e.1 = h
    · subst he
      simp [dropEntry, lookupSock, Ne.symm hne, ih]
    · by_cases he' : e.1 = h' <;> simp [dropEntry, lookupSock, he, he', hne, ih]

/- ### The hex header decoder `unhex` (lines 552-593) -/

/-- One arm of the `switch` in `unhex`: the value of a hex digit, or `none`
for the `default:` arm.  The `switch` enumerates exactly the characters
`0-9`, `a-f` and `A-F`. -/
def hexDigitVal (c : Char) : Option Nat :=
  if '0' ≤ c ∧ c ≤ '9' then some (c.toNat - '0'.toNat)
  else if 'a' ≤ c ∧ c ≤ 'f' then some (c.toNat - 'a'.toNat + 10)
  else if 'A' ≤ c ∧ c ≤ 'F' then some (c.toNat - 'A'.toNat + 10)
  else none

/-- The accumulator loop of `unhex`.  `n = (n << 4) | c` equals `16 * n + c`
because the digit value `c` is below 16. -/
def unhexAux : List Char → Nat → Nat
  | [], n => n
  | c :: rest, n =>
    match hexDigitVal c with
    | none => 0xffffffff
    | some d => unhexAux rest (16 * n + d)

/-- `unhex(s, len)` over the first `len` characters: the caller passes the
prefix explicitly as a list. -/
def unhex (s : List Char) : Nat :=
  unhexAux s 0

/- ### Smart-socket request framing (lines 684-699) -/

/-- Outcome of examining the accumulated request buffer. -/
inductive FrameCheck
  | needMore
  | badLen (len : Nat)
  | complete (len : Nat)
deriving DecidableEq, Repr

/-- The header examination of `smart_socket_enqueue` (lines 684-699): fewer
than 4 bytes cannot be decoded; the decoded `len` must lie in
`[1, MAX_PAYLOAD_V1]`; and the full `4 + len` bytes must be present.
`maxPayloadV1` stands for the `MAX_PAYLOAD_V1` constant of the external
`adb.h` header. -/
def examineFrame (maxPayloadV1 : Nat) (buf : List Char) (blen : Nat) :
    FrameCheck :=
  if blen < 4 then .needMore
  else
    let len := unhex (buf.take 4)
    if len < 1 ∨ len > maxPayloadV1 then .badLen len
    else if len + 4 > blen then .needMore
    else .complete len

/-- The request text extracted after a complete frame:
`(char*)(p->data + 4)`, NUL-terminated at `len + 4`. -/
def requestBytes (buf : List Char) (len : Nat) : List Char :=
  (buf.drop 4).take len

/- ### The 4-digit hex encoding of the length header -/

/-- A single lowercase hex digit (for `d < 16`). -/
def hexChar (d : Nat) : Char :=
  if d < 10 then Char.ofNat ('0'.toNat + d) else Char.ofNat ('a'.toNat + (d - 10))

/-- The `"%04x"` rendering of a length below 65536: how a client frames the
request length on the wire. -/
def encodeHex4 (n : Nat) : List Char :=
  [hexChar (n / 4096 % 16), hexChar (n / 256 % 16), hexChar (n / 16 % 16),
   hexChar (n % 16)]

theorem hexDigitVal_hexChar (d : Nat) (hd : d < 16) :
    hexDigitVal (hexChar d) = some d := by
  interval_cases d <;> decide

theorem unhex_encodeHex4 (n : Nat) (hn : n < 65536) :
    unhex (encodeHex4 n) = n := by
  have h3 : n / 4096 % 16 < 16 := Nat.mod_lt _ (by norm_num)
  have h2 : n / 256 % 16 < 16 := Nat.mod_lt _ (by norm_num)
  have h1 : n / 16 % 16 < 16 := Nat.mod_lt _ (by norm_num)
  have h0 : n % 16 < 16 := Nat.mod_lt _ (by norm_num)
  simp only [unhex, encodeHex4, unhexAux, hexDigitVal_hexChar _ h3,
    hexDigitVal_hexChar _ h2, hexDigitVal_hexChar _ h1, hexDigitVal_hexChar _ h0]
  omega

theorem length_encodeHex4 (n : Nat) : (encodeHex4 n).length = 4 := rfl

/- ### Registry operations (lines 60-123) -/

/-- `find_local_socket` (lines 60-76): scan the main list for the first
socket whose `id` matches `local_id`; when `peer_id` is nonzero that first
match must additionally have a peer with id `peer_id`, otherwise the scan
`break`s with no result. -/
def World.findLocal (w : World) (localId peerId : Nat) : Option Nat :=
  match w.mainList.find? (fun hh =>
      match w.get hh with
      | some s => s.id == localId
      | none => false) with
  | none => none
  | some hh =>
    match w.get hh with
    | none => none
    | some s =>
      if peerId = 0 then some hh
      else
        match s.peer.bind w.get with
        | some q => if q.id = peerId then some hh else none
        | none => none

/-- `remove_socket` (lines 98-107): when the socket is linked into a list
(`prev` and `next` set), unlink it and zero its id. -/
def World.removeSocket (w : World) (h : Nat) : World :=
  match w.get h with
  | none => w
  | some s =>
    if h ∈ w.mainList ∨ h ∈ w.closingList then
      { w with mainList := w.mainList.erase h
             , closingList := w.closingList.erase h
             , sock := setEntry w.sock h { s with id := 0 } }
    else w

/- ### Local socket destruction and close (lines 186-248) -/

/-- `local_socket_destroy` (lines 186-210): detach the fd watcher (which
closes the fd), discard queued packets, unregister, free; exit the process
when `exit_on_close` is set. -/
def World.destroyLocal (w : World) (h : Nat) : World :=
  match w.get h with
  | none => w
  | some s =>
    let w := w.emit (.fdeRemove h)
    let w := w.removeSocket h
    let w := w.free h
    if s.exitOnClose then w.emit (.processExit 1) else w

/-- Lines 229-248 of `local_socket_close`: the destroy-or-defer decision,
reached once `s->peer` is null.  Destroy immediately when already closing, on
a sticky write error, or with an empty queue; otherwise mark `closing`,
disarm read-readiness, move from the main list to the closing list (the
`FDE_WRITE` bit is left untouched, as the final `CHECK_EQ` asserts). -/
def World.localCloseNoPeer (w : World) (h : Nat) : World :=
  match w.get h with
  | none => w
  | some s =>
    if s.closing || s.hasWriteError || s.pkts.isEmpty then
      w.destroyLocal h
    else
      let w := w.set h { s with closing := true, readArmed := false }
      let w := w.emit (.fdeDelRead h)
      let w := w.removeSocket h
      { w with closingList := w.closingList ++ [h] }

/-- Dispatch of `s->shutdown(s)`.  `remote_socket_shutdown` (lines 466-476)
sends a CLSE whose `arg0` is the peer's id when a peer is linked (the packet
from `get_apacket` is zeroed, so `arg0` stays 0 otherwise) and whose `arg1`
is the socket's own id. -/
def World.shutdownSock (w : World) (h : Nat) : World :=
  match w.get h with
  | none => w
  | some s =>
    match s.shutdownFn with
    | .noneS => w
    | .remoteS =>
      let a0 :=
        match s.peer with
        | some hq =>
          match w.get hq with
          | some q => q.id
          | none => 0
        | none => 0
      w.emit (.sendPacket .aClse a0 s.id 0 [] s.transport)

/-- The message `local_socket_close_notify` sends before closing. -/
def closedMsg : List Char := "closed".toList

/-- Dispatch of `peer->close(peer)` during a cascade.  The caller has just
nulled the callee's back-reference (`peer->peer = nullptr` on the preceding
source line), so the callee's own peer-handling block is vacuous and each
close function reduces to its tail:
  * `local_socket_close` to the destroy-or-defer decision;
  * `local_socket_close_notify` (lines 544-550) restores the plain local
    vtable, sends FAIL "closed", then runs the same decision;
  * `remote_socket_close` (lines 478-488) frees the socket;
  * `smart_socket_close` (lines 835-846) drops the buffered packet and frees
    the socket. -/
def World.closePeerDetached (w : World) (h : Nat) : World :=
  match w.get h with
  | none => w
  | some s =>
    match s.closeFn with
    | .localC => w.localCloseNoPeer h
    | .localCNotify =>
      let w := w.set h
        { s with readyFn := .localR, shutdownFn := .noneS, closeFn := .localC }
      let w := w.emit (.sendFail s.fd closedMsg)
      w.localCloseNoPeer h
    | .remoteC => w.free h
    | .smartC => w.free h

/-- `local_socket_close` (lines 212-248).  With a peer present: call the
peer's `shutdown` while both cross-references are still intact, null the
peer's back-reference, close the peer, null the own peer field; then the
destroy-or-defer decision. -/
def World.localCloseBody (w : World) (h : Nat) : World :=
  match w.get h with
  | none => w
  | some s =>
    let w :=
      match s.peer with
      | none => w
      | some hq =>
        let w := w.shutdownSock hq
        let w :=
          match w.get hq with
          | some q => w.set hq { q with peer := none }
          | none => w
        let w := w.closePeerDetached hq
        match w.get h with
        | some s2 => w.set h { s2 with peer := none }
        | none => w
    w.localCloseNoPeer h

/-- Dispatch of a top-level `s->close(s)`.  `remote_socket_close` and
`smart_socket_close` null the peer's back-reference, cascade into the peer's
close, then free themselves (`smart_socket_close` additionally drops its
buffered request packet, which is stored inside the freed socket here). -/
def World.closeSock (w : World) (h : Nat) : World :=
  match w.get h with
  | none => w
  | some s =>
    match s.closeFn with
    | .localC => w.localCloseBody h
    | .localCNotify =>
      let w := w.set h
        { s with readyFn := .localR, shutdownFn := .noneS, closeFn := .localC }
      let w := w.emit (.sendFail s.fd closedMsg)
      w.localCloseBody h
    | .remoteC =>
      match s.peer with
      | some hq =>
        let w :=
          match w.get hq with
          | some q => w.set hq { q with peer := none }
          | none => w
        let w := w.closePeerDetached hq
        w.free h
      | none => w.free h
    | .smartC =>
      match s.peer with
      | some hq =>
        let w :=
          match w.get hq with
          | some q => w.set hq { q with peer := none }
          | none => w
        let w := w.closePeerDetached hq
        w.free h
      | none => w.free h

/-- Dispatch of `s->ready(s)`.  `local_socket_ready` arms read-readiness;
`remote_socket_ready` (lines 457-464) sends OKAY with `arg0` the peer's id
and `arg1` the own id; `smart_socket_ready` only logs;
`local_socket_ready_notify` (lines 533-539) restores the plain local vtable,
sends OKAY on the fd, then arms read-readiness. -/
def World.readySock (w : World) (h : Nat) : World :=
  match w.get h with
  | none => w
  | some s =>
    match s.readyFn with
    | .localR => (w.set h { s with readArmed := true }).emit (.fdeAddRead h)
    | .smartR => w
    | .remoteR =>
      let a0 :=
        match s.peer with
        | some hq =>
          match w.get hq with
          | some q => q.id
          | none => 0
        | none => 0
      w.emit (.sendPacket .aOkay a0 s.id 0 [] s.transport)
    | .localRNotify =>
      let w := w.set h
        { s with readyFn := .localR, shutdownFn := .noneS, closeFn := .localC,
                 readArmed := true }
      let w := w.emit (.sendOkay s.fd)
      w.emit (.fdeAddRead h)

/-- `remote_socket_enqueue` (lines 447-455): stamp the packet as WRTE with
`arg0` the peer's id, `arg1` the own id and `data_length = p->len`, hand it
to `send_packet` on the own transport, return 1. -/
def World.remoteEnqueue (w : World) (h : Nat) (p : APacket) : World × Int :=
  match w.get h with
  | none => (w, 1)
  | some s =>
    let a0 :=
      match s.peer with
      | some hq =>
        match w.get hq with
        | some q => q.id
        | none => 0
      | none => 0
    (w.emit (.sendPacket .aWrte a0 s.id p.len (p.data.take p.len) s.transport), 1)

/- ### Local socket enqueue (lines 125-177) -/

/-- One result of a non-blocking `adb_write` call: `wrote n` for a return of
`n` bytes (`n = 0` is the zero-byte-write case), `eagain` for `-1` with
`errno == EAGAIN`, `errOther` for `-1` with any other errno. -/
inductive WRes
  | wrote (n : Nat)
  | eagain
  | errOther
deriving DecidableEq, Repr

/-- How the write loop of `local_socket_enqueue` exited. -/
inductive LoopOut
  | drained
  | blocked (ptr len : Nat)
  | errored
deriving DecidableEq, Repr

/-- The `while (p->len > 0)` write loop (lines 141-157), consuming one oracle
entry per `adb_write` call and recording each call in the trace.  A positive
return advances the cursor (`adb_write` never reports more than it was
asked to write, hence the `min`); a zero return or a non-EAGAIN error exits
through the error path; EAGAIN breaks out with the remainder.  `none` means
the oracle was too short to decide the loop. -/
def writeLoop (fd : Int) : List WRes → Nat → Nat → Option (LoopOut × List Ev)
  | _, _, 0 => some (.drained, [])
  | [], _, _ + 1 => none
  | r :: rest, ptr, len + 1 =>
    match r with
    | .wrote 0 => some (.errored, [.adbWrite fd (len + 1)])
    | .wrote (n + 1) =>
      let written := min (n + 1) (len + 1)
      (writeLoop fd rest (ptr + written) (len + 1 - written)).map
        (fun out => (out.1, .adbWrite fd (len + 1) :: out.2))
    | .eagain => some (.blocked ptr (len + 1), [.adbWrite fd (len + 1)])
    | .errOther => some (.errored, [.adbWrite fd (len + 1)])

/-- `local_socket_enqueue` (lines 125-177).  The cursor is reset
(`p->ptr = p->data`); with a backlog the packet is appended and write
readiness armed; otherwise the write loop runs: on error the packet is
dropped, `has_write_error` set and the socket closed (return 1, the
"not ready (error)" comment); a fully drained packet is freed (return 0); a
remainder is queued with write readiness armed (return 1). -/
def World.localEnqueue (w : World) (h : Nat) (pIn : APacket)
    (oracle : List WRes) : Option (World × Int) :=
  match w.get h with
  | none => none
  | some s =>
    let p := { pIn with ptr := 0 }
    if s.pkts.isEmpty then
      match writeLoop s.fd oracle p.ptr p.len with
      | none => none
      | some (out, tr) =>
        let w := { w with trace := w.trace ++ tr }
        match out with
        | .errored =>
          let w := w.set h { s with hasWriteError := true }
          some (w.closeSock h, 1)
        | .drained => some (w, 0)
        | .blocked ptr2 len2 =>
          let w := w.set h
            { s with pkts := [{ p with ptr := ptr2, len := len2 }],
                     writeArmed := true }
          some (w.emit (.fdeAddWrite h), 1)
    else
      let w := w.set h { s with pkts := s.pkts ++ [p], writeArmed := true }
      some (w.emit (.fdeAddWrite h), 1)

/- ### close_all_sockets (lines 109-123) -/

/-- The match condition of `close_all_sockets`: the socket's transport is
`t`, or it has a peer whose transport is `t`. -/
def World.matchesT (w : World) (t : Nat) (h : Nat) : Bool :=
  match w.get h with
  | none => false
  | some s =>
    s.transport == some t ||
      match s.peer.bind w.get with
      | some q => q.transport == some t
      | none => false

/-- The first socket in the main list matching transport `t`, as found by the
`for` loop of `close_all_sockets`. -/
def World.findCloseTarget (w : World) (t : Nat) : Option Nat :=
  w.mainList.find? (fun h => w.matchesT t h)

/-- The `goto restart` loop of `close_all_sockets` (lines 116-122), with an
explicit iteration bound: close the first matching socket and rescan from the
head.  `none` reports bound exhaustion (shown impossible for the bound used
by `closeAllSockets`). -/
def closeAllFuel : Nat → World → Nat → Option World
  | 0, w, t =>
    (match w.findCloseTarget t with
     | none => some w
     | some _ => none)
  | fuel + 1, w, t =>
    match w.findCloseTarget t with
    | none => some w
    | some h => closeAllFuel fuel (w.closeSock h) t

/-- `close_all_sockets(t)`: every close removes the closed socket from the
main list, so the list length bounds the number of iterations. -/
def World.closeAllSockets (w : World) (t : Nat) : Option World :=
  closeAllFuel w.mainList.length w t

/- ### Smart socket (lines 595-829) -/

/-- The NUL terminator of C strings. -/
def nulChar : Char := Char.ofNat 0

/-- `strchr(s + start, c)` on a NUL-terminated view of the buffer, returning
an index into the original buffer. -/
def strchrFrom (s : List Char) (start : Nat) (c : Char) : Option Nat :=
  (((s.drop start).takeWhile (fun x => x != nulChar)).findIdx?
      (fun x => x == c)).map (fun i => i + start)

/-- `internal::skip_host_serial` (lines 606-650): position of the colon just
before the command part of a `host-serial` request, or `none`.  The four
literal serial prefixes route straight to the next colon; otherwise an
optional `tcp:`/`udp:` protocol prefix is skipped, a bracketed IPv6 serial is
stepped over, and a purely decimal segment between the next two colons is
consumed as a port. -/
def skipHostSerial (service : List Char) : Option Nat :=
  if ("usb:".toList).isPrefixOf service then strchrFrom service 4 ':'
  else if ("product:".toList).isPrefixOf service then strchrFrom service 8 ':'
  else if ("model:".toList).isPrefixOf service then strchrFrom service 6 ':'
  else if ("device:".toList).isPrefixOf service then strchrFrom service 7 ':'
  else
    let base :=
      if ("tcp:".toList).isPrefixOf service || ("udp:".toList).isPrefixOf service
      then 4 else 0
    let cur :=
      if service.getD base nulChar = '[' then
        match strchrFrom service base ']' with
        | some j => j
        | none => base
      else base
    match strchrFrom service cur ':' with
    | none => none
    | some colon =>
      if (service.getD (colon + 1) nulChar).isDigit then
        let j := colon + 1 + ((service.drop (colon + 1)).takeWhile Char.isDigit).length
        if service.getD j nulChar = ':' then some j else some colon
      else some colon

/-- `TransportType` of the external `transport.h`. -/
inductive TType
  | tAny
  | tUsb
  | tLocal
deriving DecidableEq, Repr

/-- The collaborators `smart_socket_enqueue` consults, per spec external
hooks: the compile-time `ADB_HOST` flag, the payload bounds of the missing
`adb.h` header, transport capability and state queries, and the opaque
service hooks `handle_host_request`, `host_service_to_socket` /
`create_host_service_socket` and `acquire_one_transport`. -/
structure SmartEnv where
  adbHost : Bool
  maxPayload : Nat
  maxPayloadV1 : Nat
  transportMaxPayload : Nat → Nat
  transportOnline : Nat → Bool
  handleHostRequest : List Char → TType → Option (List Char) → Int
  hostServiceSocket : List Char → Option (List Char) → Option ASocket
  acquireTransport : Option Nat
  acquireError : List Char

/-- `asocket::get_max_payload` (lines 869-878): the minimum of the
`MAX_PAYLOAD` ceiling and the capabilities of the own and the peer's
transports, where present. -/
def World.getMaxPayload (w : World) (env : SmartEnv) (s : ASocket) : Nat :=
  let m := env.maxPayload
  let m :=
    match s.transport with
    | some t => min m (env.transportMaxPayload t)
    | none => m
  match s.peer.bind w.get with
  | some q =>
    match q.transport with
    | some t => min m (env.transportMaxPayload t)
    | none => m
  | none => m

/-- The `fail:` join point of `smart_socket_enqueue` (lines 822-828): close
self (closing the still-attached peer as a side effect) and return -1. -/
def World.smartFail (w : World) (h : Nat) : World × Int :=
  (w.closeSock h, -1)

def unknownServiceMsg : List Char := "unknown host service".toList

def offlineNoTransportMsg : List Char := "device offline (no transport)".toList

def offlineTransportMsg : List Char := "device offline (transport offline)".toList

/-- The host-side prefix dispatch of `smart_socket_enqueue` (lines 706-729):
the service text after the matched prefix, the transport type, and the
extracted serial for `host-serial:` requests. -/
def hostDisp (req : List Char) : Option (List Char × TType × Option (List Char)) :=
  if ("host-serial:".toList).isPrefixOf req then
    let after := req.drop 12
    match skipHostSerial after with
    | some idx => some (after.drop (idx + 1), .tAny, some (after.take idx))
    | none => some (after, .tAny, none)
  else if ("host-usb:".toList).isPrefixOf req then some (req.drop 9, .tUsb, none)
  else if ("host-local:".toList).isPrefixOf req then some (req.drop 11, .tLocal, none)
  else if ("host:".toList).isPrefixOf req then some (req.drop 5, .tAny, none)
  else none

/-- Lines 794-820 of `smart_socket_enqueue`: the remote-connect conversion.
With no transport, or an offline one, FAIL the peer and tear down.
Otherwise instrument the peer with the notify vtable variants, detach it,
hand it the transport, emit the OPEN packet (`connect_to_remote`,
lines 514-529, with its oversize `fatal` check), drop the peer link and close
self, returning 1. -/
def World.deviceConnect (w : World) (env : SmartEnv) (h : Nat) (s : ASocket)
    (p : APacket) (peerFd : Int) : World × Int :=
  match s.transport with
  | none => ((w.emit (.sendFail peerFd offlineNoTransportMsg)).smartFail h)
  | some t =>
    if env.transportOnline t = false then
      ((w.emit (.sendFail peerFd offlineTransportMsg)).smartFail h)
    else
      match s.peer with
      | none => (w, 1)
      | some hq =>
        match w.get hq with
        | none => (w, 1)
        | some q =>
          let q2 := { q with readyFn := .localRNotify, shutdownFn := .noneS,
                             closeFn := .localCNotify, peer := none,
                             transport := s.transport }
          let w := w.set hq q2
          let dest := (p.data.drop 4).takeWhile (fun c => c != nulChar)
          let dlen := dest.length + 1
          if dlen > w.getMaxPayload env q2 - 1 then (w.emit .fatalErr, 1)
          else
            let w := w.emit
              (.sendPacket .aOpen q2.id 0 dlen (dest ++ [nulChar]) q2.transport)
            let w :=
              match w.get h with
              | some s3 => w.set h { s3 with peer := none }
              | none => w
            (w.closeSock h, 1)

/-- Lines 701-829 of `smart_socket_enqueue`: the dispatch on a complete
request.  On the host build, a matched host prefix goes to
`handle_host_request` (0 tears down through `fail:`), the `transport`
special case resets the buffer, and otherwise a host service socket is
created and the pair converted (peer made a plain local socket bound to the
new service, self detached and closed, service kicked with `ready`).  On the
device build a transport is acquired if absent, then the remote-connect
conversion runs. -/
def World.smartDispatch (w : World) (env : SmartEnv) (newH h : Nat)
    (s : ASocket) (p : APacket) (len : Nat) : World × Int :=
  let req := requestBytes p.data len
  let peerFd : Int :=
    match s.peer.bind w.get with
    | some q => q.fd
    | none => 0
  if env.adbHost then
    match hostDisp req with
    | some (service, ty, serial) =>
      if env.handleHostRequest service ty serial = 0 then w.smartFail h
      else if ("transport".toList).isPrefixOf service then
        let w := w.set h { s with pkts := { p with len := 0 } :: s.pkts.drop 1 }
        (w, 0)
      else
        match env.hostServiceSocket service serial with
        | none => ((w.emit (.sendFail peerFd unknownServiceMsg)).smartFail h)
        | some s2 =>
          let w := w.emit (.sendOkay peerFd)
          let w :=
            match s.peer with
            | some hq =>
              match w.get hq with
              | some q => w.set hq
                  { q with readyFn := .localR, shutdownFn := .noneS,
                           closeFn := .localC, peer := some newH }
              | none => w
            | none => w
          let w := { w with sock := (newH, { s2 with peer := s.peer }) :: w.sock }
          let w :=
            match w.get h with
            | some s3 => w.set h { s3 with peer := none }
            | none => w
          let w := w.closeSock h
          (w.readySock newH, 0)
    | none => w.deviceConnect env h s p peerFd
  else
    match s.transport with
    | none =>
      match env.acquireTransport with
      | none => ((w.emit (.sendFail peerFd env.acquireError)).smartFail h)
      | some t =>
        let s2 := { s with transport := some t }
        (w.set h s2).deviceConnect env h s2 p peerFd
    | some _ => w.deviceConnect env h s p peerFd

/-- The framing stage of `smart_socket_enqueue`: examine the accumulated
buffer, wait (0), fail (-1), or NUL-terminate the request
(`p->data[len + 4] = 0`) and dispatch. -/
def World.smartExamine (w : World) (env : SmartEnv) (newH h : Nat)
    (s : ASocket) (p : APacket) : World × Int :=
  match examineFrame env.maxPayloadV1 p.data p.len with
  | .needMore => (w, 0)
  | .badLen _ => w.smartFail h
  | .complete len =>
    let p2 := { p with data := p.data.take (len + 4) ++ [nulChar] }
    let s2 := { s with pkts := p2 :: s.pkts.drop 1 }
    (w.set h s2).smartDispatch env newH h s2 p2 len

/-- `smart_socket_enqueue` (lines 656-829).  The incoming packet either
becomes the single scratch packet or is copied onto the end of the existing
one (failing when the combined request would exceed `max_payload`); then the
frame is examined and dispatched.  `newH` is the fresh arena handle used if
a host service socket is created. -/
def World.smartEnqueue (w : World) (env : SmartEnv) (newH h : Nat)
    (pIn : APacket) : World × Int :=
  match w.get h with
  | none => (w, 0)
  | some s =>
    match s.pkts with
    | [] =>
      let s2 := { s with pkts := [pIn] }
      (w.set h s2).smartExamine env newH h s2 pIn
    | p0 :: rest =>
      if p0.len + pIn.len > w.getMaxPayload env s then w.smartFail h
      else
        let p := { p0 with data := p0.data.take p0.len ++ pIn.data.take pIn.len,
                           len := p0.len + pIn.len }
        let s2 := { s with pkts := p :: rest }
        (w.set h s2).smartExamine env newH h s2 p

/- ### C8: framing round-trip -/

/-- C8: for every request payload of length `L` with `1 ≤ L ≤ MAX_PAYLOAD_V1`
(and `L < 65536`, as presupposed by a 4-hex-digit header), the frame built as
the `"%04x"` rendering of `L` followed by the `L` payload bytes is examined
as a complete request of length exactly `L`, and the request text extracted
by the smart-endpoint parser is the identical payload byte string. -/
theorem c8_framing_round_trip (v1 L : Nat) (payload : List Char)
    (h1 : 1 ≤ L) (h2 : L ≤ v1) (h3 : L < 65536) (h4 : payload.length = L) :
    examineFrame v1 (encodeHex4 L ++ payload) (4 + L) = .complete L ∧
    requestBytes (encodeHex4 L ++ payload) L = payload := by
  have htake : (encodeHex4 L ++ payload).take 4 = encodeHex4 L := by
    have hl := length_encodeHex4 L
    rw [← hl]
    exact List.take_left _ _
  have hdrop : (encodeHex4 L ++ payload).drop 4 = payload := by
    have hl := length_encodeHex4 L
    rw [← hl]
    exact List.drop_left _ _
  constructor
  · unfold examineFrame
    rw [if_neg (by omega)]
    simp only [htake, unhex_encodeHex4 L h3]
    rw [if_neg (by omega), if_neg (by omega)]
  · unfold requestBytes
    rw [hdrop, ← h4]
    exact List.take_length ..

/-- Witness for C8 at `L = 12`, the `host:version` request. -/
theorem c8_witness :
    examineFrame 4096 (encodeHex4 12 ++ ("host:version".toList)) (4 + 12) =
      .complete 12 ∧
    requestBytes (encodeHex4 12 ++ ("host:version".toList)) 12 =
      "host:version".toList :=
  c8_framing_round_trip 4096 12 ("host:version".toList) (by decide) (by decide)
    (by decide) (by decide)

/- ### C6: remote endpoint packet stamping -/

/-- C6: for a remote endpoint with a live peer, `enqueue` stamps the packet
as WRTE with `arg0` the peer's id, `arg1` the own id and `data_length` the
packet length, hands it to `send_packet` and returns 1; `ready` sends OKAY
with `arg0` the peer's id and `arg1` the own id; `shutdown` sends CLSE with
`arg0` the peer's id and `arg1` the own id. -/
theorem c6_remote_packets (w : World) (h hq : Nat) (s q : ASocket) (p : APacket)
    (hs : w.get h = some s) (hpeer : s.peer = some hq)
    (hqs : w.get hq = some q) :
    w.remoteEnqueue h p =
      (w.emit (.sendPacket .aWrte q.id s.id p.len (p.data.take p.len)
        s.transport), 1) ∧
    (s.readyFn = .remoteR →
      w.readySock h = w.emit (.sendPacket .aOkay q.id s.id 0 [] s.transport)) ∧
    (s.shutdownFn = .remoteS →
      w.shutdownSock h = w.emit (.sendPacket .aClse q.id s.id 0 [] s.transport)) := by
  refine ⟨?_, ?_, ?_⟩
  · simp only [World.remoteEnqueue, hs, hpeer, hqs]
  · intro hr
    simp only [World.readySock, hs, hr, hpeer, hqs]
  · intro hr
    simp only [World.shutdownSock, hs, hr, hpeer, hqs]

/-- A remote socket record used by concrete witnesses. -/
def exRemote : ASocket :=
  { id := 5, fd := -1, peer := some 3, transport := some 0, pkts := [],
    closing := false, hasWriteError := false, exitOnClose := false,
    readArmed := false, writeArmed := false, enqueueFn := .remoteE,
    readyFn := .remoteR, shutdownFn := .remoteS, closeFn := .remoteC }

/-- A local socket record used by concrete witnesses. -/
def exLocal : ASocket :=
  { id := 1, fd := 9, peer := some 2, transport := none, pkts := [],
    closing := false, hasWriteError := false, exitOnClose := false,
    readArmed := true, writeArmed := false, enqueueFn := .localE,
    readyFn := .localR, shutdownFn := .noneS, closeFn := .localC }

/-- A world holding the remote/local pair of `exRemote` and `exLocal`. -/
def exWorldRL : World :=
  { sock := [(2, exRemote), (3, exLocal)], mainList := [3], closingList := [],
    trace := [] }

/-- A small test packet. -/
def exPkt : APacket :=
  { cmd := .zero, arg0 := 0, arg1 := 0, dataLength := 0, data := "hi".toList,
    ptr := 0, len := 2 }

/-- Witness for C6: the remote socket of `exWorldRL` with its live local
peer. -/
theorem c6_witness :
    exWorldRL.remoteEnqueue 2 exPkt =
      (exWorldRL.emit (.sendPacket .aWrte exLocal.id exRemote.id exPkt.len
        (exPkt.data.take exPkt.len) exRemote.transport), 1) ∧
    (exRemote.readyFn = .remoteR →
      exWorldRL.readySock 2 = exWorldRL.emit
        (.sendPacket .aOkay exLocal.id exRemote.id 0 [] exRemote.transport)) ∧
    (exRemote.shutdownFn = .remoteS →
      exWorldRL.shutdownSock 2 = exWorldRL.emit
        (.sendPacket .aClse exLocal.id exRemote.id 0 [] exRemote.transport)) :=
  c6_remote_packets exWorldRL 2 3 exRemote exLocal exPkt (by decide) (by decide)
    (by decide)

/- ### Frame lemmas for the world operations -/

@[simp] theorem World.get_emit (w : World) (e : Ev) (h : Nat) :
    (w.emit e).get h = w.get h := rfl

@[simp] theorem World.mainList_emit (w : World) (e : Ev) :
    (w.emit e).mainList = w.mainList := rfl

@[simp] theorem World.closingList_emit (w : World) (e : Ev) :
    (w.emit e).closingList = w.closingList := rfl

@[simp] theorem World.trace_emit (w : World) (e : Ev) :
    (w.emit e).trace = w.trace ++ [e] := rfl

@[simp] theorem World.mainList_set (w : World) (h : Nat) (s : ASocket) :
    (w.set h s).mainList = w.mainList := rfl

@[simp] theorem World.closingList_set (w : World) (h : Nat) (s : ASocket) :
    (w.set h s).closingList = w.closingList := rfl

@[simp] theorem World.trace_set (w : World) (h : Nat) (s : ASocket) :
    (w.set h s).trace = w.trace := rfl

@[simp] theorem World.mainList_free (w : World) (h : Nat) :
    (w.free h).mainList = w.mainList := rfl

@[simp] theorem World.closingList_free (w : World) (h : Nat) :
    (w.free h).closingList = w.closingList := rfl

@[simp] theorem World.trace_free (w : World) (h : Nat) :
    (w.free h).trace = w.trace := rfl

@[simp] theorem World.get_set_eq (w : World) (h : Nat) (s : ASocket) :
    (w.set h s).get h = (w.get h).map (fun _ => s) :=
  lookup_set_eq w.sock h s

@[simp] theorem World.get_set_ne (w : World) (h h' : Nat) (s : ASocket)
    (hne : h' ≠ h) : (w.set h s).get h' = w.get h' :=
  lookup_set_ne w.sock h h' s hne

@[simp] theorem World.get_free_eq (w : World) (h : Nat) :
    (w.free h).get h = none :=
  lookup_drop_eq w.sock h

@[simp] theorem World.get_free_ne (w : World) (h h' : Nat) (hne : h' ≠ h) :
    (w.free h).get h' = w.get h' :=
  lookup_drop_ne w.sock h h' hne

theorem World.removeSocket_get_ne (w : World) (h h' : Nat) (hne : h' ≠ h) :
    (w.removeSocket h).get h' = w.get h' := by
  unfold World.removeSocket
  cases hg : w.get h with
  | none => rfl
  | some s =>
    by_cases hc : h ∈ w.mainList ∨ h ∈ w.closingList
    · simp only [hc, if_true]
      exact lookup_set_ne w.sock h h' _ hne
    · simp [hc]

theorem World.shutdownSock_get (w : World) (h h' : Nat) :
    (w.shutdownSock h).get h' = w.get h' := by
  unfold World.shutdownSock
  split
  · rfl
  · split
    · rfl
    · rfl

theorem World.destroyLocal_get_ne (w : World) (h h' : Nat) (hne : h' ≠ h) :
    (w.destroyLocal h).get h' = w.get h' := by
  unfold World.destroyLocal
  cases hg : w.get h with
  | none => rfl
  | some s =>
    by_cases he : s.exitOnClose <;>
      simp [he, World.removeSocket_get_ne _ _ _ hne, hne]

theorem World.destroyLocal_get_self (w : World) (h : Nat) (s : ASocket)
    (hs : w.get h = some s) : (w.destroyLocal h).get h = none := by
  unfold World.destroyLocal
  rw [hs]
  by_cases he : s.exitOnClose <;> simp [he]

theorem World.localCloseNoPeer_get_ne (w : World) (h h' : Nat) (hne : h' ≠ h) :
    (w.localCloseNoPeer h).get h' = w.get h' := by
  unfold World.localCloseNoPeer
  cases hg : w.get h with
  | none => rfl
  | some s =>
    by_cases hc : (s.closing || s.hasWriteError || s.pkts.isEmpty) = true
    · simp only [hc, if_true]
      exact World.destroyLocal_get_ne _ _ _ hne
    · simp only [hc, if_false]
      show (World.removeSocket _ h).get h' = _
      rw [World.removeSocket_get_ne _ _ _ hne]
      simp [hne]

theorem World.closePeerDetached_get_ne (w : World) (h h' : Nat) (hne : h' ≠ h) :
    (w.closePeerDetached h).get h' = w.get h' := by
  unfold World.closePeerDetached
  split
  · rfl
  · split
    · exact World.localCloseNoPeer_get_ne _ _ _ hne
    · rw [World.localCloseNoPeer_get_ne _ _ _ hne]
      simp [hne]
    · exact World.get_free_ne _ _ _ hne
    · exact World.get_free_ne _ _ _ hne

/-- `smart_socket_close` always frees the closed socket itself. -/
theorem World.closeSock_smart_frees (w : World) (h : Nat) (s : ASocket)
    (hs : w.get h = some s) (hc : s.closeFn = .smartC) :
    (w.closeSock h).get h = none := by
  unfold World.closeSock
  rw [hs]
  simp only [hc]
  cases hp : s.peer with
  | none => exact World.get_free_eq _ _
  | some hq => exact World.get_free_eq _ _

/- ### C5: local socket enqueue -/

/-- A blocked exit of the write loop carries the advanced cursor: the
remainder starts where the writes stopped and the written and remaining
parts partition the packet. -/
theorem writeLoop_blocked_inv (fd : Int) (oracle : List WRes) :
    ∀ ptr len ptr2 len2 tr,
      writeLoop fd oracle ptr len = some (.blocked ptr2 len2, tr) →
      ptr2 + len2 = ptr + len ∧ len2 ≤ len ∧ 0 < len2 := by
  induction oracle with
  | nil =>
    intro ptr len ptr2 len2 tr hw
    cases len with
    | zero => simp [writeLoop] at hw
    | succ n => simp [writeLoop] at hw
  | cons r rest ih =>
    intro ptr len ptr2 len2 tr hw
    cases len with
    | zero => simp [writeLoop] at hw
    | succ n =>
      cases r with
      | wrote m =>
        cases m with
        | zero => simp [writeLoop] at hw
        | succ k =>
          simp only [writeLoop, Option.map_eq_some'] at hw
          obtain ⟨out, hout, heq⟩ := hw
          obtain ⟨o1, o2⟩ := out
          simp only [Prod.mk.injEq] at heq
          obtain ⟨ho1, _⟩ := heq
          subst ho1
          have := ih _ _ _ _ _ hout
          omega
      | eagain =>
        simp only [writeLoop, Option.some.injEq, Prod.mk.injEq,
          LoopOut.blocked.injEq] at hw
        omega
      | errOther => simp [writeLoop] at hw

/-- C5: `local_socket_enqueue` appends to a non-empty queue and returns 1
without writing to the fd; with an empty queue it runs the non-blocking
write loop, returning 0 when the packet fully drains, and on EAGAIN queues
the remainder (with the advanced cursor), arms write-readiness and returns
1; a blocked remainder always partitions the original packet. -/
theorem c5_local_enqueue (w : World) (h : Nat) (s : ASocket) (pIn : APacket)
    (oracle : List WRes) (hs : w.get h = some s) :
    (s.pkts ≠ [] →
      w.localEnqueue h pIn oracle =
        some ((w.set h { s with
          writeArmed := true,
          pkts := s.pkts ++ [{ pIn with ptr := 0 }] }).emit
          (.fdeAddWrite h), 1)) ∧
    (∀ tr, s.pkts = [] →
      writeLoop s.fd oracle 0 pIn.len = some (.drained, tr) →
      w.localEnqueue h pIn oracle = some ({ w with trace := w.trace ++ tr }, 0)) ∧
    (∀ ptr2 len2 tr, s.pkts = [] →
      writeLoop s.fd oracle 0 pIn.len = some (.blocked ptr2 len2, tr) →
      w.localEnqueue h pIn oracle =
        some ((({ w with trace := w.trace ++ tr }).set h
          { s with
            writeArmed := true,
            pkts := [{ pIn with ptr := ptr2, len := len2 }] }).emit
          (.fdeAddWrite h), 1)) ∧
    (∀ oracle2 ptr0 len0 ptr2 len2 tr2,
      writeLoop s.fd oracle2 ptr0 len0 = some (.blocked ptr2 len2, tr2) →
      ptr2 + len2 = ptr0 + len0 ∧ len2 ≤ len0 ∧ 0 < len2) := by
  refine ⟨?_, ?_, ?_, ?_⟩
  · intro hne
    unfold World.localEnqueue
    rw [hs]
    have hie : s.pkts.isEmpty = false := by
      cases hp : s.pkts with
      | nil => exact absurd hp hne
      | cons a as => rfl
    simp [hie]
  · intro tr hp hw
    unfold World.localEnqueue
    rw [hs]
    simp only [hp, List.isEmpty_nil, if_true]
    have : writeLoop s.fd oracle ({ pIn with ptr := 0 } : APacket).ptr
        ({ pIn with ptr := 0 } : APacket).len = some (.drained, tr) := hw
    rw [this]
  · intro ptr2 len2 tr hp hw
    unfold World.localEnqueue
    rw [hs]
    simp only [hp, List.isEmpty_nil, if_true]
    have : writeLoop s.fd oracle ({ pIn with ptr := 0 } : APacket).ptr
        ({ pIn with ptr := 0 } : APacket).len = some (.blocked ptr2 len2, tr) := hw
    rw [this]
  · intro oracle2 ptr0 len0 ptr2 len2 tr2 hw
    exact writeLoop_blocked_inv s.fd oracle2 ptr0 len0 ptr2 len2 tr2 hw

/-- A local socket with no peer and an empty queue, and its world. -/
def exLocalNP : ASocket :=
  { id := 4, fd := 7, peer := none, transport := none, pkts := [],
    closing := false, hasWriteError := false, exitOnClose := false,
    readArmed := true, writeArmed := false, enqueueFn := .localE,
    readyFn := .localR, shutdownFn := .noneS, closeFn := .localC }

/-- A local socket with a queued packet. -/
def exLocalQ : ASocket :=
  { exLocalNP with pkts := [exPkt] }

def exWorldNP : World :=
  { sock := [(0, exLocalNP)], mainList := [0], closingList := [], trace := [] }

def exWorldQ : World :=
  { sock := [(0, exLocalQ)], mainList := [0], closingList := [], trace := [] }

/-- Witness for C5: the backlog append, a fully drained write, a partial
write blocked by EAGAIN, and the cursor invariant, on concrete sockets and
write oracles. -/
theorem c5_witness :
    exWorldQ.localEnqueue 0 exPkt [] =
      some ((exWorldQ.set 0 { exLocalQ with
        writeArmed := true,
        pkts := exLocalQ.pkts ++ [{ exPkt with ptr := 0 }] }).emit
        (Ev.fdeAddWrite 0), 1) ∧
    exWorldNP.localEnqueue 0 exPkt [.wrote 2] =
      some ({ exWorldNP with
        trace := exWorldNP.trace ++ [Ev.adbWrite 7 2] }, 0) ∧
    exWorldNP.localEnqueue 0 exPkt [.wrote 1, .eagain] =
      some ((({ exWorldNP with
        trace := exWorldNP.trace ++ [Ev.adbWrite 7 2, Ev.adbWrite 7 1] }).set 0
        { exLocalNP with
          writeArmed := true,
          pkts := [{ exPkt with ptr := 1, len := 1 }] }).emit
        (Ev.fdeAddWrite 0), 1) ∧
    (1 + 1 = 0 + 2 ∧ 1 ≤ 2 ∧ 0 < 1) := by
  have hc := c5_local_enqueue exWorldQ 0 exLocalQ exPkt [] (by decide)
  have hc2 := c5_local_enqueue exWorldNP 0 exLocalNP exPkt [.wrote 2] (by decide)
  have hc3 := c5_local_enqueue exWorldNP 0 exLocalNP exPkt [.wrote 1, .eagain]
    (by decide)
  refine ⟨hc.1 (by decide), ?_, ?_, ?_⟩
  · exact hc2.2.1 [Ev.adbWrite 7 2] (by decide) (by decide)
  · exact hc3.2.2.1 1 1 [Ev.adbWrite 7 2, Ev.adbWrite 7 1] (by decide) (by decide)
  · exact hc3.2.2.2 [.wrote 1, .eagain] 0 2 1 1
      [Ev.adbWrite 7 2, Ev.adbWrite 7 1] (by decide)

/- ### C1: enqueue return convention on self-close -/

/-- `local_socket_close` on a peerless socket with a sticky write error
destroys the socket immediately. -/
theorem World.closeSock_local_wErr_frees (w : World) (h : Nat) (s : ASocket)
    (hs : w.get h = some s) (hc : s.closeFn = .localC) (hp : s.peer = none)
    (he : s.hasWriteError = true) : (w.closeSock h).get h = none := by
  unfold World.closeSock World.localCloseBody
  rw [hs]
  simp only [hc, hp]
  unfold World.localCloseNoPeer
  rw [hs]
  simp only [he, Bool.or_true, Bool.true_or, if_true]
  exact World.destroyLocal_get_self w h s hs

/-- Counterexample to C1 as stated: on the zero-byte-write / write-error path
`local_socket_enqueue` closes its own endpoint (the socket is freed, handle
lookup yields `none`) yet returns 1, which is not negative. -/
theorem c1_counterexample :
    (exWorldNP.localEnqueue 0 exPkt [.errOther]).map
        (fun r => (r.2, r.1.get 0)) = some (1, none) ∧
    ¬ ((1 : Int) < 0) := by decide

/-- A first packet with at least 4 bytes whose decoded header length is out
of range makes `smart_socket_enqueue` close itself and return -1. -/
theorem World.smartEnqueue_badHeader (w : World) (env : SmartEnv)
    (newH h : Nat) (s : ASocket) (pIn : APacket)
    (hs : w.get h = some s) (hc : s.closeFn = .smartC) (hp : s.pkts = [])
    (hlen : 4 ≤ pIn.len)
    (hb : unhex (pIn.data.take 4) < 1 ∨
      env.maxPayloadV1 < unhex (pIn.data.take 4)) :
    (w.smartEnqueue env newH h pIn).2 = -1 ∧
    (w.smartEnqueue env newH h pIn).1.get h = none := by
  have hbad : examineFrame env.maxPayloadV1 pIn.data pIn.len =
      .badLen (unhex (pIn.data.take 4)) := by
    simp only [examineFrame]
    rw [if_neg (by omega), if_pos (by omega)]
  have hget : (w.set h { s with pkts := [pIn] }).get h =
      some { s with pkts := [pIn] } := by
    rw [World.get_set_eq, hs]
    rfl
  unfold World.smartEnqueue
  rw [hs]
  simp only [hp]
  unfold World.smartExamine
  rw [hbad]
  unfold World.smartFail
  constructor
  · rfl
  · exact World.closeSock_smart_frees _ _ _ hget hc

/-- C1 (amended): only `smart_socket_enqueue`'s failure paths signal a
self-close with -1; `local_socket_enqueue` returns 1 — a non-negative
"not ready" value — on the write-error / zero-byte-write path in which it
closes its own endpoint, so a non-negative return does not guarantee the
callee endpoint is still live. -/
theorem c1_enqueue_close_returns :
    (∀ (w : World) (h : Nat) (s : ASocket) (pIn : APacket)
        (oracle : List WRes) (tr : List Ev),
      w.get h = some s → s.pkts = [] → s.closeFn = .localC → s.peer = none →
      writeLoop s.fd oracle 0 pIn.len = some (.errored, tr) →
      ∃ w2, w.localEnqueue h pIn oracle = some (w2, 1) ∧ w2.get h = none) ∧
    (∀ (w : World) (env : SmartEnv) (newH h : Nat) (s : ASocket) (pIn : APacket),
      w.get h = some s → s.closeFn = .smartC → s.pkts = [] → 4 ≤ pIn.len →
      (unhex (pIn.data.take 4) < 1 ∨ env.maxPayloadV1 < unhex (pIn.data.take 4)) →
      (w.smartEnqueue env newH h pIn).2 = -1 ∧
      (w.smartEnqueue env newH h pIn).1.get h = none) := by
  constructor
  · intro w h s pIn oracle tr hs hp hc hpe hw
    unfold World.localEnqueue
    rw [hs]
    simp only [hp, List.isEmpty_nil, if_true]
    have hw2 : writeLoop s.fd oracle ({ pIn with ptr := 0 } : APacket).ptr
        ({ pIn with ptr := 0 } : APacket).len = some (.errored, tr) := hw
    rw [hw2]
    refine ⟨_, rfl, ?_⟩
    apply World.closeSock_local_wErr_frees _ _ { s with hasWriteError := true }
    · rw [World.get_set_eq]
      have hsame : ({ w with trace := w.trace ++ tr } : World).get h = some s := hs
      rw [hsame]
      simp [hp]
    · exact hc
    · exact hpe
    · rfl
  · intro w env newH h s pIn hs hc hp hlen hbadc
    exact World.smartEnqueue_badHeader w env newH h s pIn hs hc hp hlen hbadc

/-- A peerless smart socket and its world, plus a concrete environment. -/
def exSmartNP : ASocket :=
  { id := 0, fd := -1, peer := none, transport := none, pkts := [],
    closing := false, hasWriteError := false, exitOnClose := false,
    readArmed := false, writeArmed := false, enqueueFn := .smartE,
    readyFn := .smartR, shutdownFn := .noneS, closeFn := .smartC }

def exWorldSm : World :=
  { sock := [(1, exSmartNP)], mainList := [], closingList := [], trace := [] }

/-- A concrete collaborator environment: host build, 4 KiB payload bounds,
`handle_host_request` answering every request itself (returning 0), no host
service sockets, no acquirable transport. -/
def exEnv : SmartEnv :=
  { adbHost := true, maxPayload := 4096, maxPayloadV1 := 4096,
    transportMaxPayload := fun _ => 4096, transportOnline := fun _ => true,
    handleHostRequest := fun _ _ _ => 0, hostServiceSocket := fun _ _ => none,
    acquireTransport := none, acquireError := [] }

/-- A packet whose four header bytes are not hex digits. -/
def exPktZ : APacket :=
  { cmd := .zero, arg0 := 0, arg1 := 0, dataLength := 0, data := "zzzz".toList,
    ptr := 0, len := 4 }

/-- Witness for the amended C1: the write-error close of a local socket
returning 1, and a framing-failure close of a smart socket returning -1. -/
theorem c1_witness :
    (∃ w2, exWorldNP.localEnqueue 0 exPkt [.errOther] = some (w2, 1) ∧
      w2.get 0 = none) ∧
    ((exWorldSm.smartEnqueue exEnv 99 1 exPktZ).2 = -1 ∧
      (exWorldSm.smartEnqueue exEnv 99 1 exPktZ).1.get 1 = none) :=
  ⟨c1_enqueue_close_returns.1 exWorldNP 0 exLocalNP exPkt [.errOther]
      [.adbWrite 7 2] (by decide) (by decide) (by decide) (by decide) (by decide),
   c1_enqueue_close_returns.2 exWorldSm exEnv 99 1 exSmartNP exPktZ
      (by decide) (by decide) (by decide) (by decide) (Or.inr (by decide))⟩

/- ### C3: smart socket framing -/

/-- The `default:` arm of `unhex` is reached whenever any scanned character
is not a hex digit, yielding the sentinel. -/
theorem unhexAux_bad :
    ∀ (buf : List Char) (n : Nat), (∃ c ∈ buf, hexDigitVal c = none) →
      unhexAux buf n = 0xffffffff := by
  intro buf
  induction buf with
  | nil =>
    intro n hb
    simp at hb
  | cons c rest ih =>
    intro n hb
    obtain ⟨c2, hmem, hbad⟩ := hb
    simp only [unhexAux]
    cases hd : hexDigitVal c with
    | none => rfl
    | some d =>
      rcases List.mem_cons.mp hmem with he | hm
      · subst he
        rw [hd] at hbad
        exact absurd hbad (by simp)
      · exact ih _ ⟨c2, hm, hbad⟩

/-- C3: the framing state machine of `smart_socket_enqueue`.  With fewer
than 4 accumulated bytes, or a valid in-range length whose payload has not
fully arrived, enqueue returns 0 and the endpoint stays alive holding the
accumulated buffer; a header outside `[1, MAX_PAYLOAD_V1]` (including the
`0xffffffff` sentinel produced by any non-hex header byte) closes the
endpoint and returns -1; an append that would exceed `max_payload` closes
the endpoint and returns -1. -/
theorem c3_smart_framing (w : World) (env : SmartEnv) (newH h : Nat)
    (s : ASocket) (pIn : APacket)
    (hs : w.get h = some s) (hc : s.closeFn = .smartC) :
    (s.pkts = [] → pIn.len < 4 →
      w.smartEnqueue env newH h pIn = (w.set h { s with pkts := [pIn] }, 0)) ∧
    (s.pkts = [] → 4 ≤ pIn.len →
      1 ≤ unhex (pIn.data.take 4) → unhex (pIn.data.take 4) ≤ env.maxPayloadV1 →
      pIn.len < unhex (pIn.data.take 4) + 4 →
      w.smartEnqueue env newH h pIn = (w.set h { s with pkts := [pIn] }, 0)) ∧
    (s.pkts = [] → 4 ≤ pIn.len →
      (unhex (pIn.data.take 4) < 1 ∨ env.maxPayloadV1 < unhex (pIn.data.take 4)) →
      (w.smartEnqueue env newH h pIn).2 = -1 ∧
      (w.smartEnqueue env newH h pIn).1.get h = none) ∧
    (∀ p0 rest, s.pkts = p0 :: rest →
      w.getMaxPayload env s < p0.len + pIn.len →
      w.smartEnqueue env newH h pIn = (w.closeSock h, -1) ∧
      (w.smartEnqueue env newH h pIn).1.get h = none) ∧
    (∀ p0 rest, s.pkts = p0 :: rest →
      p0.len + pIn.len ≤ w.getMaxPayload env s →
      p0.len + pIn.len < 4 →
      w.smartEnqueue env newH h pIn =
        (w.set h { s with pkts :=
          { p0 with data := p0.data.take p0.len ++ pIn.data.take pIn.len,
                    len := p0.len + pIn.len } :: rest }, 0)) ∧
    (∀ buf : List Char, (∃ c ∈ buf, hexDigitVal c = none) →
      unhex buf = 0xffffffff) := by
  refine ⟨?_, ?_, ?_, ?_, ?_, ?_⟩
  · intro hp hlen
    have hnm : examineFrame env.maxPayloadV1 pIn.data pIn.len = .needMore := by
      simp only [examineFrame]
      rw [if_pos hlen]
    unfold World.smartEnqueue
    rw [hs]
    simp only [hp]
    unfold World.smartExamine
    rw [hnm]
  · intro hp hlen h1 h2 h3
    have hnm : examineFrame env.maxPayloadV1 pIn.data pIn.len = .needMore := by
      simp only [examineFrame]
      rw [if_neg (by omega), if_neg (by omega), if_pos (by omega)]
    unfold World.smartEnqueue
    rw [hs]
    simp only [hp]
    unfold World.smartExamine
    rw [hnm]
  · intro hp hlen hb
    exact World.smartEnqueue_badHeader w env newH h s pIn hs hc hp hlen hb
  · intro p0 rest hp hover
    unfold World.smartEnqueue
    rw [hs]
    simp only [hp]
    rw [if_pos hover]
    exact ⟨rfl, World.closeSock_smart_frees w h s hs hc⟩
  · intro p0 rest hp hfit hshort
    have hnm : examineFrame env.maxPayloadV1
        (p0.data.take p0.len ++ pIn.data.take pIn.len) (p0.len + pIn.len) =
        .needMore := by
      simp only [examineFrame]
      rw [if_pos hshort]
    unfold World.smartEnqueue
    rw [hs]
    simp only [hp]
    rw [if_neg (by omega)]
    unfold World.smartExamine
    rw [hnm]
  · intro buf hb
    exact unhexAux_bad buf 0 hb

/-- A packet carrying the bytes of a string. -/
def strPkt (s : String) : APacket :=
  { cmd := .zero, arg0 := 0, arg1 := 0, dataLength := 0, data := s.toList,
    ptr := 0, len := s.toList.length }

/-- A collaborator environment with a small `max_payload` of 8 bytes. -/
def exEnvS : SmartEnv := { exEnv with maxPayload := 8 }

/-- A smart socket that has already buffered the 4 bytes `0123`. -/
def exWorldSmQ4 : World :=
  { sock := [(1, { exSmartNP with pkts := [strPkt "0123"] })], mainList := [],
    closingList := [], trace := [] }

/-- A smart socket that has already buffered the single byte `0`. -/
def exWorldSmQ1 : World :=
  { sock := [(1, { exSmartNP with pkts := [strPkt "0"] })], mainList := [],
    closingList := [], trace := [] }

/-- Witness for C3: a short first fragment, an incomplete valid frame, a
non-hex header, an overflowing append, a short append, and the `unhex`
sentinel, each on concrete packets. -/
theorem c3_witness :
    exWorldSm.smartEnqueue exEnv 99 1 (strPkt "00") =
      (exWorldSm.set 1 { exSmartNP with pkts := [strPkt "00"] }, 0) ∧
    exWorldSm.smartEnqueue exEnv 99 1 (strPkt "0010host:") =
      (exWorldSm.set 1 { exSmartNP with pkts := [strPkt "0010host:"] }, 0) ∧
    ((exWorldSm.smartEnqueue exEnv 99 1 exPktZ).2 = -1 ∧
      (exWorldSm.smartEnqueue exEnv 99 1 exPktZ).1.get 1 = none) ∧
    (exWorldSmQ4.smartEnqueue exEnvS 99 1 (strPkt "56789") =
        (exWorldSmQ4.closeSock 1, -1) ∧
      (exWorldSmQ4.smartEnqueue exEnvS 99 1 (strPkt "56789")).1.get 1 = none) ∧
    exWorldSmQ1.smartEnqueue exEnv 99 1 (strPkt "01") =
      (exWorldSmQ1.set 1 { exSmartNP with pkts :=
        [{ strPkt "0" with
           data := (strPkt "0").data.take (strPkt "0").len ++
             (strPkt "01").data.take (strPkt "01").len,
           len := (strPkt "0").len + (strPkt "01").len }] }, 0) ∧
    unhex ("zz".toList) = 0xffffffff := by
  have t1 := c3_smart_framing exWorldSm exEnv 99 1 exSmartNP (strPkt "00")
    (by decide) (by decide)
  have t2 := c3_smart_framing exWorldSm exEnv 99 1 exSmartNP (strPkt "0010host:")
    (by decide) (by decide)
  have t3 := c3_smart_framing exWorldSm exEnv 99 1 exSmartNP exPktZ
    (by decide) (by decide)
  have t4 := c3_smart_framing exWorldSmQ4 exEnvS 99 1
    { exSmartNP with pkts := [strPkt "0123"] } (strPkt "56789")
    (by decide) (by decide)
  have t5 := c3_smart_framing exWorldSmQ1 exEnv 99 1
    { exSmartNP with pkts := [strPkt "0"] } (strPkt "01")
    (by decide) (by decide)
  refine ⟨t1.1 rfl (by decide),
    t2.2.1 rfl (by decide) (by decide) (by decide) (by decide),
    t3.2.2.1 rfl (by decide) (Or.inr (by decide)),
    t4.2.2.2.1 (strPkt "0123") [] rfl (by decide),
    t5.2.2.2.2.1 (strPkt "0") [] rfl (by decide) (by decide),
    t1.2.2.2.2.2 ("zz".toList) ⟨'z', by decide, by decide⟩⟩

/- ### C2: host request handled locally -/

@[simp] theorem World.trace_removeSocket (w : World) (h : Nat) :
    (w.removeSocket h).trace = w.trace := by
  unfold World.removeSocket
  split
  · rfl
  · split
    · rfl
    · rfl

/-- `local_socket_close` on a peerless, quiescent socket (no queue, no flags)
reduces to the immediate-destroy sequence. -/
theorem World.localCloseNoPeer_destroys (w : World) (h : Nat) (s : ASocket)
    (hs : w.get h = some s) (hcl : s.closing = false)
    (hwe : s.hasWriteError = false) (hpk : s.pkts = [])
    (hex : s.exitOnClose = false) :
    w.localCloseNoPeer h = ((w.emit (.fdeRemove h)).removeSocket h).free h := by
  unfold World.localCloseNoPeer World.destroyLocal
  rw [hs]
  simp only [hcl, hwe, hpk, List.isEmpty_nil, Bool.false_or, if_true]
  rw [if_neg (by simp [hex])]

/-- `smart_socket_close` with a quiescent local peer attached: the peer's
back-reference is nulled, the peer destroyed (the only emitted event is its
fd-watcher detach), and the smart socket freed. -/
theorem World.closeSock_smart_peer (w : World) (h hq : Nat) (s q : ASocket)
    (hs : w.get h = some s) (hc : s.closeFn = .smartC) (hpe : s.peer = some hq)
    (hneq : hq ≠ h) (hqs : w.get hq = some q) (hqc : q.closeFn = .localC)
    (hqp : q.pkts = []) (hqcl : q.closing = false)
    (hqw : q.hasWriteError = false) (hqe : q.exitOnClose = false) :
    (w.closeSock h).get h = none ∧ (w.closeSock h).get hq = none ∧
    (w.closeSock h).trace = w.trace ++ [.fdeRemove hq] := by
  have h1 : (w.set hq { q with peer := none, closeFn := CloseFn.localC }).get hq =
      some { q with peer := none, closeFn := CloseFn.localC } := by
    rw [World.get_set_eq, hqs]
    rfl
  have h2 := World.localCloseNoPeer_destroys
    (w.set hq { q with peer := none, closeFn := CloseFn.localC })
    hq { q with peer := none, closeFn := CloseFn.localC } h1 hqcl hqw hqp hqe
  have hcp : (w.set hq { q with
        peer := none,
        closeFn := CloseFn.localC }).closePeerDetached hq =
      ((((w.set hq { q with peer := none, closeFn := CloseFn.localC }).emit
        (.fdeRemove hq)).removeSocket hq).free hq) := by
    unfold World.closePeerDetached
    rw [h1]
    exact h2
  have hchain : w.closeSock h =
      ((((w.set hq { q with peer := none, closeFn := CloseFn.localC }).emit
        (.fdeRemove hq)).removeSocket hq).free hq).free h := by
    unfold World.closeSock
    rw [hs]
    simp only [hc, hpe, hqs, hqc]
    rw [hcp]
  refine ⟨?_, ?_, ?_⟩
  · rw [hchain]
    exact World.get_free_eq _ _
  · rw [hchain]
    rw [World.get_free_ne _ _ _ hneq]
    exact World.get_free_eq _ _
  · rw [hchain]
    simp

/-- A local socket (handle 0) paired with a smart socket (handle 1). -/
def exWorldRL2 : World :=
  { sock := [(0, { exLocalNP with peer := some 1 }),
             (1, { exSmartNP with peer := some 0 })],
    mainList := [0], closingList := [], trace := [] }

/-- Counterexample to C2 as stated: feeding the complete request
`000Chost:version` to a smart endpoint whose `handle_host_request` returns 0
does close the smart endpoint and emits no packet, but the peer is *not*
left unchanged: the teardown cascades through `smart_socket_close`, nulls
the peer's back-reference and closes (here: frees) the peer as well. -/
theorem c2_counterexample :
    (exWorldRL2.smartEnqueue exEnv 99 1 (strPkt "000Chost:version")).2 = -1 ∧
    (exWorldRL2.smartEnqueue exEnv 99 1 (strPkt "000Chost:version")).1.get 1 =
      none ∧
    (exWorldRL2.smartEnqueue exEnv 99 1 (strPkt "000Chost:version")).1.get 0 =
      none ∧
    (exWorldRL2.smartEnqueue exEnv 99 1 (strPkt "000Chost:version")).1.trace =
      [Ev.fdeRemove 0] := by decide

/-- C2 (amended): when a smart endpoint receives the complete request
`000Chost:version` and `handle_host_request` returns 0, enqueue returns -1,
the smart endpoint is closed and freed, its peer is closed as well (its
back-reference nulled and, with an empty write queue, destroyed
immediately), and no packet is emitted on any transport: the only new trace
event is the peer's fd-watcher detach. -/
theorem c2_host_request_teardown (w : World) (env : SmartEnv) (newH h hq : Nat)
    (s q : ASocket)
    (hs : w.get h = some s) (hc : s.closeFn = .smartC) (hp : s.pkts = [])
    (hpe : s.peer = some hq) (hneq : hq ≠ h)
    (hqs : w.get hq = some q) (hqc : q.closeFn = .localC)
    (hqp : q.pkts = []) (hqcl : q.closing = false)
    (hqw : q.hasWriteError = false) (hqe : q.exitOnClose = false)
    (hadb : env.adbHost = true) (hv1 : 12 ≤ env.maxPayloadV1)
    (hhr : env.handleHostRequest ("version".toList) .tAny none = 0) :
    (w.smartEnqueue env newH h (strPkt "000Chost:version")).2 = -1 ∧
    (w.smartEnqueue env newH h (strPkt "000Chost:version")).1.get h = none ∧
    (w.smartEnqueue env newH h (strPkt "000Chost:version")).1.get hq = none ∧
    (w.smartEnqueue env newH h (strPkt "000Chost:version")).1.trace =
      w.trace ++ [.fdeRemove hq] := by
  have hu : unhex ((strPkt "000Chost:version").data.take 4) = 12 := by decide
  have hex2 : examineFrame env.maxPayloadV1 (strPkt "000Chost:version").data
      (strPkt "000Chost:version").len = .complete 12 := by
    have hl : (strPkt "000Chost:version").len = 16 := by decide
    simp only [examineFrame, hu, hl]
    rw [if_neg (by omega), if_neg (by omega), if_neg (by omega)]
  have hreq : requestBytes ({ strPkt "000Chost:version" with
      data := (strPkt "000Chost:version").data.take (12 + 4) ++ [nulChar] } :
      APacket).data 12 = "host:version".toList := by decide
  have hdisp : hostDisp ("host:version".toList) =
      some ("version".toList, TType.tAny, none) := by decide
  have hrun : w.smartEnqueue env newH h (strPkt "000Chost:version") =
      (((w.set h { s with pkts := [strPkt "000Chost:version"] }).set h
        { s with pkts := [{ strPkt "000Chost:version" with
          data := (strPkt "000Chost:version").data.take (12 + 4) ++
            [nulChar] }] }).closeSock h, -1) := by
    unfold World.smartEnqueue
    rw [hs]
    simp only [hp]
    unfold World.smartExamine
    rw [hex2]
    unfold World.smartDispatch
    simp only [hreq, hdisp, hadb, hpe, Option.bind, eq_self_iff_true, if_true]
    rw [if_pos hhr]
    unfold World.smartFail
    rfl
  have hget3 : ((w.set h { s with pkts := [strPkt "000Chost:version"] }).set h
      { s with pkts := [{ strPkt "000Chost:version" with
        data := (strPkt "000Chost:version").data.take (12 + 4) ++
          [nulChar] }] }).get h =
      some { s with pkts := [{ strPkt "000Chost:version" with
        data := (strPkt "000Chost:version").data.take (12 + 4) ++
          [nulChar] }] } := by
    simp [hs]
  have hgetq : ((w.set h { s with pkts := [strPkt "000Chost:version"] }).set h
      { s with pkts := [{ strPkt "000Chost:version" with
        data := (strPkt "000Chost:version").data.take (12 + 4) ++
          [nulChar] }] }).get hq = some q := by
    rw [World.get_set_ne _ _ _ _ hneq, World.get_set_ne _ _ _ _ hneq]
    exact hqs
  have key := World.closeSock_smart_peer _ h hq _ q hget3 hc hpe hneq hgetq
    hqc hqp hqcl hqw hqe
  rw [hrun]
  exact ⟨rfl, key.1, key.2.1, key.2.2⟩

/-- Witness for the amended C2 on the concrete pair of `exWorldRL2`. -/
theorem c2_witness :
    (exWorldRL2.smartEnqueue exEnv 99 1 (strPkt "000Chost:version")).2 = -1 ∧
    (exWorldRL2.smartEnqueue exEnv 99 1 (strPkt "000Chost:version")).1.get 1 =
      none ∧
    (exWorldRL2.smartEnqueue exEnv 99 1 (strPkt "000Chost:version")).1.get 0 =
      none ∧
    (exWorldRL2.smartEnqueue exEnv 99 1 (strPkt "000Chost:version")).1.trace =
      exWorldRL2.trace ++ [.fdeRemove 0] :=
  c2_host_request_teardown exWorldRL2 exEnv 99 1 0
    { exSmartNP with peer := some 0 } { exLocalNP with peer := some 1 }
    (by decide) (by decide) (by decide) (by decide) (by decide) (by decide)
    (by decide) (by decide) (by decide) (by decide) (by decide) (by decide)
    (by decide) (by decide)

/- ### C4: local socket close / pair teardown -/

theorem World.removeSocket_get_self_in (w : World) (h : Nat) (s : ASocket)
    (hs : w.get h = some s) (hmem : h ∈ w.mainList ∨ h ∈ w.closingList) :
    (w.removeSocket h).get h = some { s with id := 0 } := by
  unfold World.removeSocket
  simp only [hs]
  rw [if_pos hmem]
  show lookupSock (setEntry w.sock h _) h = _
  rw [lookup_set_eq]
  rw [show lookupSock w.sock h = some s from hs]
  rfl

theorem World.removeSocket_lists_in (w : World) (h : Nat) (s : ASocket)
    (hs : w.get h = some s) (hmem : h ∈ w.mainList ∨ h ∈ w.closingList) :
    (w.removeSocket h).mainList = w.mainList.erase h ∧
    (w.removeSocket h).closingList = w.closingList.erase h := by
  unfold World.removeSocket
  simp only [hs]
  rw [if_pos hmem]
  exact ⟨rfl, rfl⟩

theorem World.removeSocket_get_self_isSome (w : World) (h : Nat) (s : ASocket)
    (hs : w.get h = some s) :
    ((w.removeSocket h).get h).isSome = true := by
  unfold World.removeSocket
  simp only [hs]
  split
  · show (lookupSock (setEntry w.sock h _) h).isSome = true
    rw [lookup_set_eq]
    rw [show lookupSock w.sock h = some s from hs]
    rfl
  · rw [hs]
    rfl

/-- `local_socket_close` with no peer is exactly the destroy-or-defer
decision. -/
theorem World.closeSock_local_noPeer (w : World) (h : Nat) (s : ASocket)
    (hs : w.get h = some s) (hc : s.closeFn = .localC) (hp : s.peer = none) :
    w.closeSock h = w.localCloseNoPeer h := by
  unfold World.closeSock World.localCloseBody
  simp only [hs, hc, hp]

theorem World.localCloseNoPeer_destroys_get (w : World) (h : Nat) (s : ASocket)
    (hs : w.get h = some s)
    (hcb : (s.closing || s.hasWriteError || s.pkts.isEmpty) = true) :
    (w.localCloseNoPeer h).get h = none := by
  unfold World.localCloseNoPeer
  simp only [hs]
  rw [if_pos hcb]
  exact World.destroyLocal_get_self w h s hs

/-- The deferred branch of `local_socket_close` (lines 239-247), as the
explicit sequence: mark closing and disarm read readiness, log the
`fdevent_del`, unlink from the registry, append to the closing list. -/
theorem World.localCloseNoPeer_defers (w : World) (h : Nat) (s : ASocket)
    (hs : w.get h = some s)
    (hcb : (s.closing || s.hasWriteError || s.pkts.isEmpty) = false) :
    w.localCloseNoPeer h =
      { ((w.set h { s with closing := true, readArmed := false }).emit
          (.fdeDelRead h)).removeSocket h with
        closingList :=
          ((((w.set h { s with closing := true, readArmed := false }).emit
            (.fdeDelRead h)).removeSocket h).closingList) ++ [h] } := by
  unfold World.localCloseNoPeer
  simp only [hs]
  rw [if_neg (by simp [hcb])]

theorem World.localCloseNoPeer_defers_isSome (w : World) (h : Nat) (s : ASocket)
    (hs : w.get h = some s)
    (hcb : (s.closing || s.hasWriteError || s.pkts.isEmpty) = false) :
    ((w.localCloseNoPeer h).get h).isSome = true := by
  rw [World.localCloseNoPeer_defers w h s hs hcb]
  have hs2 : ((w.set h { s with closing := true, readArmed := false }).emit
      (.fdeDelRead h)).get h =
      some { s with closing := true, readArmed := false } := by
    rw [World.get_emit, World.get_set_eq, hs]
    rfl
  show (((_ : World).removeSocket h).get h).isSome = true
  exact World.removeSocket_get_self_isSome _ h _ hs2

/-- `local_socket_close` on a quiescent local socket paired with a remote
peer: the peer's `shutdown` runs first, emitting CLSE with `arg0` the local
socket's id (both cross-references still intact), then the peer is detached
and freed, then the local socket is destroyed. -/
theorem World.closeSock_local_remote_peer (w : World) (h hq : Nat)
    (s q : ASocket)
    (hs : w.get h = some s) (hc : s.closeFn = .localC) (hpe : s.peer = some hq)
    (hneq : hq ≠ h) (hqs : w.get hq = some q) (hsh : q.shutdownFn = .remoteS)
    (hqc : q.closeFn = .remoteC) (hqp : q.peer = some h)
    (hcl : s.closing = false) (hwe : s.hasWriteError = false)
    (hpk : s.pkts = []) (hex : s.exitOnClose = false) :
    (w.closeSock h).get h = none ∧ (w.closeSock h).get hq = none ∧
    (w.closeSock h).trace = w.trace ++
      [.sendPacket .aClse s.id q.id 0 [] q.transport, .fdeRemove h] := by
  have hne2 : h ≠ hq := Ne.symm hneq
  have hshut : w.shutdownSock hq =
      w.emit (.sendPacket .aClse s.id q.id 0 [] q.transport) := by
    unfold World.shutdownSock
    simp only [hqs, hsh, hqp, hs]
  have e1 : (w.emit (.sendPacket .aClse s.id q.id 0 [] q.transport)).get hq =
      some q := hqs
  have e2 : ((w.emit (.sendPacket .aClse s.id q.id 0 [] q.transport)).set hq
      { q with peer := none, closeFn := CloseFn.remoteC }).get hq =
      some { q with peer := none, closeFn := CloseFn.remoteC } := by
    rw [World.get_set_eq, e1]
    rfl
  have hcp : ((w.emit (.sendPacket .aClse s.id q.id 0 [] q.transport)).set hq
      { q with peer := none, closeFn := CloseFn.remoteC }).closePeerDetached hq =
      ((w.emit (.sendPacket .aClse s.id q.id 0 [] q.transport)).set hq
      { q with peer := none, closeFn := CloseFn.remoteC }).free hq := by
    unfold World.closePeerDetached
    rw [e2]
  have e3 : (((w.emit (.sendPacket .aClse s.id q.id 0 [] q.transport)).set hq
      { q with peer := none, closeFn := CloseFn.remoteC }).free hq).get h =
      some s := by
    rw [World.get_free_ne _ _ _ hne2, World.get_set_ne _ _ _ _ hne2]
    exact hs
  have e4 : ((((w.emit (.sendPacket .aClse s.id q.id 0 [] q.transport)).set hq
      { q with peer := none, closeFn := CloseFn.remoteC }).free hq).set h
      { s with peer := none, closeFn := CloseFn.localC }).get h =
      some { s with peer := none, closeFn := CloseFn.localC } := by
    rw [World.get_set_eq, e3]
    rfl
  have hdest := World.localCloseNoPeer_destroys
    ((((w.emit (.sendPacket .aClse s.id q.id 0 [] q.transport)).set hq
      { q with peer := none, closeFn := CloseFn.remoteC }).free hq).set h
      { s with peer := none, closeFn := CloseFn.localC })
    h { s with peer := none, closeFn := CloseFn.localC } e4 hcl hwe hpk hex
  have hchain : w.closeSock h =
      ((((((((w.emit (.sendPacket .aClse s.id q.id 0 [] q.transport)).set hq
        { q with peer := none, closeFn := CloseFn.remoteC }).free hq).set h
        { s with peer := none, closeFn := CloseFn.localC }).emit
        (.fdeRemove h)).removeSocket h).free h)) := by
    unfold World.closeSock World.localCloseBody
    simp only [hs, hc, hpe]
    rw [hshut]
    simp only [World.get_emit, hqs, hqc]
    rw [hcp]
    simp only [e3, hc]
    rw [hdest]
  refine ⟨?_, ?_, ?_⟩
  · rw [hchain]
    exact World.get_free_eq _ _
  · rw [hchain]
    rw [World.get_free_ne _ _ _ hneq, World.removeSocket_get_ne _ _ _ hneq]
    rw [World.get_emit, World.get_set_ne _ _ _ _ hneq]
    exact World.get_free_eq _ _
  · rw [hchain]
    simp

/-- C4: `local_socket_close`.  With no peer, the socket is destroyed exactly
when `closing` is already set, a write error is sticky, or the queue is
empty; otherwise the close defers: the socket survives with `closing` set,
read-readiness disarmed, its write-readiness bit untouched and its queue
intact, it leaves the main list and joins the closing list, and the only
emitted event is the read-disarm.  With a remote peer, the peer's shutdown
runs first — emitting CLSE whose `arg0` is this socket's id, showing the
back-reference was still set — then the peer is detached and closed
(freed), and then the destroy-or-defer decision runs. -/
theorem c4_local_close (w : World) (h : Nat) (s : ASocket)
    (hs : w.get h = some s) (hc : s.closeFn = .localC) :
    (s.peer = none →
      ((w.closeSock h).get h = none ↔
        (s.closing = true ∨ s.hasWriteError = true ∨ s.pkts = []))) ∧
    (s.peer = none → s.closing = false → s.hasWriteError = false →
      s.pkts ≠ [] → h ∈ w.mainList → w.mainList.Nodup →
      (w.closeSock h).get h =
        some { s with closing := true, readArmed := false, id := 0 } ∧
      h ∉ (w.closeSock h).mainList ∧ h ∈ (w.closeSock h).closingList ∧
      (w.closeSock h).trace = w.trace ++ [.fdeDelRead h]) ∧
    (∀ hq q, s.peer = some hq → hq ≠ h → w.get hq = some q →
      q.shutdownFn = .remoteS → q.closeFn = .remoteC → q.peer = some h →
      s.closing = false → s.hasWriteError = false → s.pkts = [] →
      s.exitOnClose = false →
      (w.closeSock h).get h = none ∧ (w.closeSock h).get hq = none ∧
      (w.closeSock h).trace = w.trace ++
        [.sendPacket .aClse s.id q.id 0 [] q.transport, .fdeRemove h]) := by
  refine ⟨?_, ?_, ?_⟩
  · intro hp
    rw [World.closeSock_local_noPeer w h s hs hc hp]
    cases hcb : (s.closing || s.hasWriteError || s.pkts.isEmpty) with
    | true =>
      rw [World.localCloseNoPeer_destroys_get w h s hs hcb]
      have hd := hcb
      simp only [Bool.or_eq_true, List.isEmpty_iff] at hd
      constructor
      · intro _
        exact or_assoc.mp hd
      · intro _
        rfl
    | false =>
      have hsome := World.localCloseNoPeer_defers_isSome w h s hs hcb
      have hd := hcb
      simp only [Bool.or_eq_false_iff] at hd
      obtain ⟨⟨d1, d2⟩, d3⟩ := hd
      constructor
      · intro hnone
        rw [hnone] at hsome
        simp at hsome
      · intro hdis
        rcases hdis with h1 | h1 | h1
        · rw [h1] at d1
          exact absurd d1 (by simp)
        · rw [h1] at d2
          exact absurd d2 (by simp)
        · rw [h1] at d3
          exact absurd d3 (by simp)
  · intro hp hcl hwe hne hmem hnd
    have hie : s.pkts.isEmpty = false := by
      cases hpk : s.pkts with
      | nil => exact absurd hpk hne
      | cons a as => rfl
    have hcb : (s.closing || s.hasWriteError || s.pkts.isEmpty) = false := by
      simp [hcl, hwe, hie]
    rw [World.closeSock_local_noPeer w h s hs hc hp,
        World.localCloseNoPeer_defers w h s hs hcb]
    have hs2 : ((w.set h { s with closing := true, readArmed := false }).emit (.fdeDelRead h)).get h = some { s with closing := true, readArmed := false } := by
      rw [World.get_emit, World.get_set_eq, hs]
      rfl
    have hmem2 : h ∈ ((w.set h { s with closing := true, readArmed := false }).emit (.fdeDelRead h)).mainList ∨ h ∈ ((w.set h { s with closing := true, readArmed := false }).emit (.fdeDelRead h)).closingList :=
      Or.inl (by simpa using hmem)
    have hrm := World.removeSocket_get_self_in _ h _ hs2 hmem2
    have hls := World.removeSocket_lists_in _ h _ hs2 hmem2
    refine ⟨hrm, ?_, ?_, ?_⟩
    · show h ∉ (((w.set h { s with closing := true, readArmed := false }).emit (.fdeDelRead h)).removeSocket h).mainList
      rw [hls.1]
      intro hmm
      exact absurd ((List.Nodup.mem_erase_iff hnd).mp hmm).1 (by simp)
    · show h ∈ (((w.set h { s with closing := true, readArmed := false }).emit (.fdeDelRead h)).removeSocket h).closingList ++ [h]
      simp
    · show ((((w.set h { s with closing := true, readArmed := false }).emit (.fdeDelRead h)).removeSocket h)).trace = w.trace ++ [.fdeDelRead h]
      simp
  · intro hq q hpe hneq hqs hsh hqc hqp hcl hwe hpk hex
    exact World.closeSock_local_remote_peer w h hq s q hs hc hpe hneq hqs hsh
      hqc hqp hcl hwe hpk hex

/-- Witness for C4: the destroy case (empty queue), the deferred case
(queued packet), and the remote-peer cascade, on concrete worlds. -/
theorem c4_witness :
    ((exWorldNP.closeSock 0).get 0 = none ↔
      (exLocalNP.closing = true ∨ exLocalNP.hasWriteError = true ∨
        exLocalNP.pkts = [])) ∧
    ((exWorldQ.closeSock 0).get 0 =
        some { exLocalQ with closing := true, readArmed := false, id := 0 } ∧
      0 ∉ (exWorldQ.closeSock 0).mainList ∧
      0 ∈ (exWorldQ.closeSock 0).closingList ∧
      (exWorldQ.closeSock 0).trace = exWorldQ.trace ++ [.fdeDelRead 0]) ∧
    ((exWorldRL.closeSock 3).get 3 = none ∧
      (exWorldRL.closeSock 3).get 2 = none ∧
      (exWorldRL.closeSock 3).trace = exWorldRL.trace ++
        [.sendPacket .aClse exLocal.id exRemote.id 0 [] exRemote.transport,
         .fdeRemove 3]) := by
  refine ⟨?_, ?_, ?_⟩
  · exact (c4_local_close exWorldNP 0 exLocalNP (by decide) (by decide)).1
      (by decide)
  · exact (c4_local_close exWorldQ 0 exLocalQ (by decide) (by decide)).2.1
      (by decide) (by decide) (by decide) (by decide) (by decide) (by decide)
  · exact (c4_local_close exWorldRL 3 exLocal (by decide) (by decide)).2.2
      2 exRemote (by decide) (by decide) (by decide) (by decide) (by decide)
      (by decide) (by decide) (by decide) (by decide) (by decide)

/- ### C9: zeroed ids on the closing list; find_local_socket scope -/

/-- C9: `remove_socket` zeroes the id of any listed socket; the deferred
branch of `local_socket_close` therefore parks the endpoint on the closing
list with id 0; and `find_local_socket` scans only the main list, so (the
two lists being disjoint) it never returns a draining endpoint. -/
theorem c9_closing_ids (w : World) :
    (∀ h s, w.get h = some s → (h ∈ w.mainList ∨ h ∈ w.closingList) →
      (w.removeSocket h).get h = some { s with id := 0 }) ∧
    (∀ h s, w.get h = some s → s.closeFn = .localC → s.peer = none →
      s.closing = false → s.hasWriteError = false → s.pkts ≠ [] →
      h ∈ w.mainList →
      (w.closeSock h).get h =
        some { s with closing := true, readArmed := false, id := 0 } ∧
      h ∈ (w.closeSock h).closingList) ∧
    (∀ lid pid r, w.findLocal lid pid = some r → r ∈ w.mainList) ∧
    (∀ lid pid r, w.findLocal lid pid = some r →
      (∀ x, x ∈ w.mainList → x ∉ w.closingList) → r ∉ w.closingList) := by
  have hfind : ∀ lid pid r, w.findLocal lid pid = some r → r ∈ w.mainList := by
    intro lid pid r hf
    unfold World.findLocal at hf
    cases hfd : w.mainList.find? (fun hh =>
        match w.get hh with
        | some s => s.id == lid
        | none => false) with
    | none =>
      rw [hfd] at hf
      exact absurd hf (by simp)
    | some hh =>
      rw [hfd] at hf
      have hmem := List.mem_of_find?_eq_some hfd
      cases hg : w.get hh with
      | none =>
        simp only [hg] at hf
        exact absurd hf (by simp)
      | some s =>
        simp only [hg] at hf
        by_cases hpid : pid = 0
        · simp only [hpid, if_true] at hf
          exact (Option.some.inj hf) ▸ hmem
        · simp only [hpid, if_false] at hf
          cases hb : s.peer.bind w.get with
          | none =>
            simp only [hb] at hf
            exact absurd hf (by simp)
          | some q =>
            simp only [hb] at hf
            by_cases hqid : q.id = pid
            · simp only [hqid, if_true] at hf
              exact (Option.some.inj hf) ▸ hmem
            · simp only [hqid, if_false] at hf
              exact absurd hf (by simp)
  refine ⟨?_, ?_, hfind, ?_⟩
  · intro h s hs hmem
    exact World.removeSocket_get_self_in w h s hs hmem
  · intro h s hs hc hp hcl hwe hne hmem
    have hie : s.pkts.isEmpty = false := by
      cases hpk : s.pkts with
      | nil => exact absurd hpk hne
      | cons a as => rfl
    have hcb : (s.closing || s.hasWriteError || s.pkts.isEmpty) = false := by
      simp [hcl, hwe, hie]
    rw [World.closeSock_local_noPeer w h s hs hc hp,
        World.localCloseNoPeer_defers w h s hs hcb]
    have hs2 : ((w.set h { s with closing := true, readArmed := false }).emit (.fdeDelRead h)).get h = some { s with closing := true, readArmed := false } := by
      rw [World.get_emit, World.get_set_eq, hs]
      rfl
    have hmem2 : h ∈ ((w.set h { s with closing := true, readArmed := false }).emit (.fdeDelRead h)).mainList ∨ h ∈ ((w.set h { s with closing := true, readArmed := false }).emit (.fdeDelRead h)).closingList :=
      Or.inl (by simpa using hmem)
    refine ⟨World.removeSocket_get_self_in _ h _ hs2 hmem2, ?_⟩
    show h ∈ (((w.set h { s with closing := true, readArmed := false }).emit (.fdeDelRead h)).removeSocket h).closingList ++ [h]
    simp
  · intro lid pid r hf hdisj
    exact hdisj r (hfind lid pid r hf)

/-- Witness for C9 on concrete worlds: id zeroing, a deferred close parking
handle 0 on the closing list with id 0, and a lookup returning only
main-list sockets. -/
theorem c9_witness :
    ((exWorldNP.removeSocket 0).get 0 = some { exLocalNP with id := 0 }) ∧
    ((exWorldQ.closeSock 0).get 0 =
        some { exLocalQ with closing := true, readArmed := false, id := 0 } ∧
      0 ∈ (exWorldQ.closeSock 0).closingList) ∧
    (0 ∈ exWorldNP.mainList) ∧
    (0 ∉ exWorldNP.closingList) := by
  refine ⟨?_, ?_, ?_, ?_⟩
  · exact (c9_closing_ids exWorldNP).1 0 exLocalNP (by decide)
      (Or.inl (by decide))
  · exact (c9_closing_ids exWorldQ).2.1 0 exLocalQ (by decide) (by decide)
      (by decide) (by decide) (by decide) (by decide) (by decide)
  · have hf : exWorldNP.findLocal 4 0 = some 0 := by decide
    exact (c9_closing_ids exWorldNP).2.2.1 4 0 0 hf
  · have hf : exWorldNP.findLocal 4 0 = some 0 := by decide
    exact (c9_closing_ids exWorldNP).2.2.2 4 0 0 hf
      (by intro x hx; simp [exWorldNP])

/- ### C10: the smart socket's scratch queue -/

theorem World.removeSocket_get_self_cases (w : World) (h : Nat) (s : ASocket)
    (hs : w.get h = some s) :
    (w.removeSocket h).get h = some { s with id := 0 } ∨
    (w.removeSocket h).get h = some s := by
  unfold World.removeSocket
  simp only [hs]
  split
  · left
    show lookupSock (setEntry w.sock h _) h = _
    rw [lookup_set_eq]
    rw [show lookupSock w.sock h = some s from hs]
    rfl
  · right
    exact hs

/-- A socket surviving the destroy-or-defer decision keeps its queue. -/
theorem World.localCloseNoPeer_pkts_self (w : World) (h : Nat) (s : ASocket)
    (hs : w.get h = some s) :
    ∀ s2, (w.localCloseNoPeer h).get h = some s2 → s2.pkts = s.pkts := by
  intro s2 h2
  cases hcb : (s.closing || s.hasWriteError || s.pkts.isEmpty) with
  | true =>
    rw [World.localCloseNoPeer_destroys_get w h s hs hcb] at h2
    exact absurd h2 (by simp)
  | false =>
    rw [World.localCloseNoPeer_defers w h s hs hcb] at h2
    have h3 : ((((w.set h { s with closing := true, readArmed := false }).emit
      (.fdeDelRead h)).removeSocket h)).get h = some s2 := h2
    have hs2 : ((w.set h { s with closing := true, readArmed := false }).emit
        (.fdeDelRead h)).get h =
        some { s with closing := true, readArmed := false } := by
      rw [World.get_emit, World.get_set_eq, hs]
      rfl
    rcases World.removeSocket_get_self_cases _ h _ hs2 with he | he
    · rw [he] at h3
      rw [← Option.some.inj h3]
    · rw [he] at h3
      rw [← Option.some.inj h3]

/-- A socket surviving `local_socket_close` keeps its queue. -/
theorem World.localCloseBody_pkts_self (w : World) (h : Nat) (s : ASocket)
    (hs : w.get h = some s) (hnp : s.peer ≠ some h) :
    ∀ s2, (w.localCloseBody h).get h = some s2 → s2.pkts = s.pkts := by
  intro s2 h2
  unfold World.localCloseBody at h2
  simp only [hs] at h2
  cases hpe : s.peer with
  | none =>
    simp only [hpe] at h2
    exact World.localCloseNoPeer_pkts_self w h s hs s2 h2
  | some hq =>
    have hne : hq ≠ h := fun he => hnp (he ▸ hpe)
    have hne2 : h ≠ hq := Ne.symm hne
    simp only [hpe] at h2
    have hgh : ((match (w.shutdownSock hq).get hq with
        | some q => (w.shutdownSock hq).set hq { q with peer := none }
        | none => (w.shutdownSock hq)).closePeerDetached hq).get h = some s := by
      cases hq1 : (w.shutdownSock hq).get hq with
      | some q =>
        simp only [hq1]
        rw [World.closePeerDetached_get_ne _ _ _ hne2,
          World.get_set_ne _ _ _ _ hne2, World.shutdownSock_get]
        exact hs
      | none =>
        simp only [hq1]
        rw [World.closePeerDetached_get_ne _ _ _ hne2, World.shutdownSock_get]
        exact hs
    simp only [hgh] at h2
    have hs4 : (((match (w.shutdownSock hq).get hq with
        | some q => (w.shutdownSock hq).set hq { q with peer := none }
        | none => (w.shutdownSock hq)).closePeerDetached hq).set h
        { s with peer := none }).get h = some { s with peer := none } := by
      rw [World.get_set_eq, hgh]
      rfl
    exact World.localCloseNoPeer_pkts_self _ h { s with peer := none } hs4 s2 h2

/-- A socket surviving its own `close` keeps its queue. -/
theorem World.closeSock_pkts_self (w : World) (h : Nat) (s : ASocket)
    (hs : w.get h = some s) (hnp : s.peer ≠ some h) :
    ∀ s2, (w.closeSock h).get h = some s2 → s2.pkts = s.pkts := by
  intro s2 h2
  unfold World.closeSock at h2
  simp only [hs] at h2
  cases hcf : s.closeFn with
  | localC =>
    simp only [hcf] at h2
    exact World.localCloseBody_pkts_self w h s hs hnp s2 h2
  | localCNotify =>
    simp only [hcf] at h2
    have hs3 : ((w.set h { s with readyFn := ReadyFn.localR, shutdownFn := ShutdownFn.noneS, closeFn := CloseFn.localC }).emit (.sendFail s.fd closedMsg)).get h = some { s with readyFn := ReadyFn.localR, shutdownFn := ShutdownFn.noneS, closeFn := CloseFn.localC } := by
      rw [World.get_emit, World.get_set_eq, hs]
      rfl
    exact World.localCloseBody_pkts_self _ h _ hs3 hnp s2 h2
  | remoteC =>
    simp only [hcf] at h2
    cases hpe : s.peer with
    | none =>
      simp only [hpe] at h2
      rw [World.get_free_eq] at h2
      exact absurd h2 (by simp)
    | some hq =>
      simp only [hpe] at h2
      rw [World.get_free_eq] at h2
      exact absurd h2 (by simp)
  | smartC =>
    simp only [hcf] at h2
    cases hpe : s.peer with
    | none =>
      simp only [hpe] at h2
      rw [World.get_free_eq] at h2
      exact absurd h2 (by simp)
    | some hq =>
      simp only [hpe] at h2
      rw [World.get_free_eq] at h2
      exact absurd h2 (by simp)

theorem World.readySock_get_ne (w : World) (h h' : Nat) (hne : h' ≠ h) :
    (w.readySock h).get h' = w.get h' := by
  unfold World.readySock
  split
  · rfl
  · split
    · simp [hne]
    · rfl
    · rfl
    · simp [hne]

/-- The remote-connect conversion never grows the smart socket's queue: any
surviving socket at `h` keeps its packets. -/
theorem World.deviceConnect_pkts (w : World) (env : SmartEnv) (h : Nat)
    (s : ASocket) (p : APacket) (fd0 : Int)
    (hs : w.get h = some s) (hnp : s.peer ≠ some h) :
    ∀ s2, (w.deviceConnect env h s p fd0).1.get h = some s2 →
      s2.pkts = s.pkts := by
  intro s2 h2
  unfold World.deviceConnect at h2
  cases htr : s.transport with
  | none =>
    simp only [htr] at h2
    exact World.closeSock_pkts_self
      (w.emit (Ev.sendFail fd0 offlineNoTransportMsg)) h s hs hnp s2 h2
  | some t =>
    simp only [htr] at h2
    by_cases hon : env.transportOnline t = false
    · rw [if_pos hon] at h2
      exact World.closeSock_pkts_self
        (w.emit (Ev.sendFail fd0 offlineTransportMsg)) h s hs hnp s2 h2
    · rw [if_neg hon] at h2
      cases hpe : s.peer with
      | none =>
        simp only [hpe] at h2
        rw [hs] at h2
        rw [← Option.some.inj h2]
      | some hq =>
        have hne2 : h ≠ hq := fun he => hnp (by rw [hpe, ← he])
        simp only [hpe] at h2
        cases hq1 : w.get hq with
        | none =>
          simp only [hq1] at h2
          rw [hs] at h2
          rw [← Option.some.inj h2]
        | some q =>
          simp only [hq1] at h2
          split at h2
          · rw [World.get_emit, World.get_set_ne _ _ _ _ hne2, hs] at h2
            rw [← Option.some.inj h2]
          · rw [World.get_emit, World.get_set_ne _ _ _ _ hne2] at h2
            simp only [hs] at h2
            exact World.closeSock_pkts_self _ h { s with peer := none }
              (by rw [World.get_set_eq, World.get_emit,
                World.get_set_ne _ _ _ _ hne2, hs]; rfl)
              (by simp) s2 h2

theorem World.get_alloc_ne (w : World) (nh h : Nat) (x : ASocket)
    (hne : nh ≠ h) :
    ({ w with sock := (nh, x) :: w.sock } : World).get h = w.get h := by
  show lookupSock ((nh, x) :: w.sock) h = lookupSock w.sock h
  simp [lookupSock, hne]

/-- Dispatching a complete request never leaves more than one packet in the
smart socket's queue (it either keeps the single scratch packet, truncates
it for a follow-up `transport` request, or tears the socket down). -/
theorem World.smartDispatch_pkts (w : World) (env : SmartEnv) (newH h : Nat)
    (s : ASocket) (p : APacket) (len : Nat)
    (hs : w.get h = some s) (hnp : s.peer ≠ some h) (hnH : newH ≠ h)
    (hl1 : s.pkts.length ≤ 1) :
    ∀ s2, (w.smartDispatch env newH h s p len).1.get h = some s2 →
      s2.pkts.length ≤ 1 := by
  intro s2 h2
  unfold World.smartDispatch at h2
  by_cases hadb : env.adbHost = true
  case pos =>
    rw [if_pos hadb] at h2
    cases hd : hostDisp (requestBytes p.data len) with
    | none =>
      simp only [hd] at h2
      have h3 := World.deviceConnect_pkts w env h s p _ hs hnp s2 h2
      rw [h3]
      exact hl1
    | some trip =>
      obtain ⟨service, ty, serial⟩ := trip
      simp only [hd] at h2
      by_cases hhr : env.handleHostRequest service ty serial = 0
      case pos =>
        rw [if_pos hhr] at h2
        have h3 := World.closeSock_pkts_self w h s hs hnp s2 h2
        rw [h3]
        exact hl1
      case neg =>
        rw [if_neg hhr] at h2
        by_cases htp : ("transport".toList).isPrefixOf service = true
        case pos =>
          rw [if_pos htp] at h2
          rw [World.get_set_eq, hs] at h2
          rw [← Option.some.inj h2]
          simp only [List.length_cons, List.length_drop]
          omega
        case neg =>
          rw [if_neg htp] at h2
          cases hsvc : env.hostServiceSocket service serial with
          | none =>
            simp only [hsvc] at h2
            have h3 := World.closeSock_pkts_self (w.emit _) h s hs hnp s2 h2
            rw [h3]
            exact hl1
          | some srec =>
            simp only [hsvc] at h2
            rw [World.readySock_get_ne _ _ _ (Ne.symm hnH)] at h2
            cases hpe : s.peer with
            | none =>
              simp only [hpe] at h2
              rw [World.get_alloc_ne _ _ _ _ hnH, World.get_emit] at h2
              simp only [hs] at h2
              have := World.closeSock_pkts_self _ h { s with peer := none }
                (by rw [World.get_set_eq, World.get_alloc_ne _ _ _ _ hnH,
                  World.get_emit, hs]; rfl)
                (by simp) s2 h2
              rw [this]
              exact hl1
            | some hq =>
              have hne2 : h ≠ hq := fun he => hnp (by rw [hpe, ← he])
              simp only [hpe] at h2
              cases hq3 : w.get hq with
              | none =>
                simp only [World.get_emit, hq3] at h2
                rw [World.get_alloc_ne _ _ _ _ hnH, World.get_emit] at h2
                simp only [hs] at h2
                have := World.closeSock_pkts_self _ h { s with peer := none }
                  (by rw [World.get_set_eq, World.get_alloc_ne _ _ _ _ hnH,
                    World.get_emit, hs]; rfl)
                  (by simp) s2 h2
                rw [this]
                exact hl1
              | some qq =>
                simp only [World.get_emit, hq3] at h2
                rw [World.get_alloc_ne _ _ _ _ hnH,
                  World.get_set_ne _ _ _ _ hne2, World.get_emit] at h2
                simp only [hs] at h2
                have := World.closeSock_pkts_self _ h { s with peer := none }
                  (by rw [World.get_set_eq, World.get_alloc_ne _ _ _ _ hnH,
                    World.get_set_ne _ _ _ _ hne2, World.get_emit, hs]; rfl)
                  (by simp) s2 h2
                rw [this]
                exact hl1
  case neg =>
    rw [if_neg hadb] at h2
    cases htr : s.transport with
    | some t =>
      simp only [htr] at h2
      have h3 := World.deviceConnect_pkts w env h s p _ hs hnp s2 h2
      rw [h3]
      exact hl1
    | none =>
      simp only [htr] at h2
      cases hac : env.acquireTransport with
      | none =>
        simp only [hac] at h2
        have h3 := World.closeSock_pkts_self (w.emit _) h s hs hnp s2 h2
        rw [h3]
        exact hl1
      | some t =>
        simp only [hac] at h2
        have := World.deviceConnect_pkts (w.set h { s with transport := some t })
          env h { s with transport := some t } p _
          (by rw [World.get_set_eq, hs]; rfl) hnp s2 h2
        rw [this]
        exact hl1

/-- The framing stage keeps the scratch queue at a single packet. -/
theorem World.smartExamine_pkts (w : World) (env : SmartEnv) (newH h : Nat)
    (s : ASocket) (p : APacket)
    (hs : w.get h = some s) (hnp : s.peer ≠ some h) (hnH : newH ≠ h)
    (hl1 : s.pkts.length ≤ 1) :
    ∀ s2, (w.smartExamine env newH h s p).1.get h = some s2 →
      s2.pkts.length ≤ 1 := by
  intro s2 h2
  unfold World.smartExamine at h2
  cases he : examineFrame env.maxPayloadV1 p.data p.len with
  | needMore =>
    simp only [he] at h2
    rw [hs] at h2
    rw [← Option.some.inj h2]
    exact hl1
  | badLen l =>
    simp only [he] at h2
    have h3 := World.closeSock_pkts_self w h s hs hnp s2 h2
    rw [h3]
    exact hl1
  | complete len =>
    simp only [he] at h2
    have hs3 : (w.set h { s with pkts := { p with data := p.data.take (len + 4) ++ [nulChar] } :: s.pkts.drop 1 }).get h = some { s with pkts := { p with data := p.data.take (len + 4) ++ [nulChar] } :: s.pkts.drop 1 } := by
      rw [World.get_set_eq, hs]
      rfl
    exact World.smartDispatch_pkts _ env newH h _ _ len hs3 hnp hnH
      (by simp only [List.length_cons, List.length_drop]; omega) s2 h2

/-- C10: the smart endpoint's scratch queue never holds more than one
packet: `smart_socket_enqueue` either installs the incoming packet as the
single queue head or copies its bytes onto the existing head, so after any
enqueue a surviving smart socket holds at most one packet; with at most one
packet the head is the entire queue, and `smart_socket_close` (which drops
only `pkt_first`) frees the socket together with its whole queue. -/
theorem c10_smart_single_packet (w : World) (env : SmartEnv) (newH h : Nat)
    (s : ASocket) (pIn : APacket)
    (hs : w.get h = some s) (hnp : s.peer ≠ some h) (hnH : newH ≠ h)
    (hl1 : s.pkts.length ≤ 1) :
    (∀ s2, (w.smartEnqueue env newH h pIn).1.get h = some s2 →
      s2.pkts.length ≤ 1) ∧
    s.pkts = s.pkts.take 1 ∧
    (s.closeFn = .smartC → (w.closeSock h).get h = none) := by
  refine ⟨?_, ?_, ?_⟩
  · intro s2 h2
    unfold World.smartEnqueue at h2
    simp only [hs] at h2
    cases hpk : s.pkts with
    | nil =>
      simp only [hpk] at h2
      have hsA : (w.set h { s with pkts := [pIn] }).get h =
          some { s with pkts := [pIn] } := by
        rw [World.get_set_eq, hs]
        rfl
      exact World.smartExamine_pkts _ env newH h _ pIn hsA hnp hnH
        (by simp) s2 h2
    | cons p0 rest =>
      simp only [hpk] at h2
      split at h2
      · have h3 := World.closeSock_pkts_self w h s hs hnp s2 h2
        rw [h3]
        exact hl1
      · have hsB : (w.set h { s with pkts := { p0 with data := p0.data.take p0.len ++ pIn.data.take pIn.len, len := p0.len + pIn.len } :: rest }).get h = some { s with pkts := { p0 with data := p0.data.take p0.len ++ pIn.data.take pIn.len, len := p0.len + pIn.len } :: rest } := by
          rw [World.get_set_eq, hs]
          rfl
        exact World.smartExamine_pkts _ env newH h _ _ hsB hnp hnH
          (by rw [hpk] at hl1; simp only [List.length_cons] at hl1 ⊢; omega)
          s2 h2
  · cases hpk : s.pkts with
    | nil => rfl
    | cons a as =>
      rw [hpk] at hl1
      simp only [List.length_cons] at hl1
      have has : as = [] := List.eq_nil_of_length_eq_zero (by omega)
      subst has
      rfl
  · intro hc
    exact World.closeSock_smart_frees w h s hs hc

/-- Witness for C10: a fresh smart socket receiving a short fragment keeps a
single buffered packet; its queue is its own head; closing frees it. -/
theorem c10_witness :
    ({ exSmartNP with pkts := [strPkt "00"] } : ASocket).pkts.length ≤ 1 ∧
    exSmartNP.pkts = exSmartNP.pkts.take 1 ∧
    (exWorldSm.closeSock 1).get 1 = none :=
  ⟨(c10_smart_single_packet exWorldSm exEnv 99 1 exSmartNP (strPkt "00")
      (by decide) (by decide) (by decide) (by decide)).1
      { exSmartNP with pkts := [strPkt "00"] } (by decide),
   (c10_smart_single_packet exWorldSm exEnv 99 1 exSmartNP (strPkt "00")
      (by decide) (by decide) (by decide) (by decide)).2.1,
   (c10_smart_single_packet exWorldSm exEnv 99 1 exSmartNP (strPkt "00")
      (by decide) (by decide) (by decide) (by decide)).2.2 (by decide)⟩

/- ### C7: close_all_sockets terminates and clears the transport -/

/-- World weakening along the close paths: every surviving socket keeps its
transport and either keeps its peer link or has it nulled.  The close
functions never create links, so `matchesT` can only switch off. -/
def World.tpLe (w2 w : World) : Prop :=
  ∀ k s2, w2.get k = some s2 → ∃ s, w.get k = some s ∧
    s2.transport = s.transport ∧ (s2.peer = s.peer ∨ s2.peer = none)

theorem World.tpLe_refl (w : World) : World.tpLe w w :=
  fun _ s2 h2 => ⟨s2, h2, rfl, Or.inl rfl⟩

theorem World.tpLe_trans {w3 w2 w : World} (h32 : World.tpLe w3 w2)
    (h21 : World.tpLe w2 w) : World.tpLe w3 w := by
  intro k s3 h3
  obtain ⟨s2, hg2, ht2, hp2⟩ := h32 k s3 h3
  obtain ⟨s1, hg1, ht1, hp1⟩ := h21 k s2 hg2
  refine ⟨s1, hg1, ht2.trans ht1, ?_⟩
  cases hp2 with
  | inl e2 =>
    cases hp1 with
    | inl e1 => exact Or.inl (e2.trans e1)
    | inr e1 => exact Or.inr (e2.trans e1)
  | inr e2 => exact Or.inr e2

theorem World.tpLe_of_get (w2 w : World) (hg : ∀ k, w2.get k = w.get k) :
    World.tpLe w2 w :=
  fun k s2 h2 => ⟨s2, (hg k) ▸ h2, rfl, Or.inl rfl⟩

theorem World.tpLe_emit (w : World) (e : Ev) : World.tpLe (w.emit e) w :=
  World.tpLe_of_get _ _ (fun _ => rfl)

theorem World.tpLe_free (w : World) (h : Nat) : World.tpLe (w.free h) w := by
  intro k s2 h2
  by_cases hk : k = h
  · subst hk
    rw [World.get_free_eq] at h2
    cases h2
  · rw [World.get_free_ne _ _ _ hk] at h2
    exact ⟨s2, h2, rfl, Or.inl rfl⟩

theorem World.tpLe_set (w : World) (h : Nat) (s s2 : ASocket)
    (hs : w.get h = some s) (ht : s2.transport = s.transport)
    (hp : s2.peer = s.peer ∨ s2.peer = none) :
    World.tpLe (w.set h s2) w := by
  intro k sk hk
  by_cases hkh : k = h
  · subst hkh
    rw [World.get_set_eq, hs] at hk
    have hks : sk = s2 := (Option.some.inj hk).symm
    subst hks
    exact ⟨s, hs, ht, hp⟩
  · rw [World.get_set_ne _ _ _ _ hkh] at hk
    exact ⟨sk, hk, rfl, Or.inl rfl⟩

theorem World.tpLe_removeSocket (w : World) (h : Nat) :
    World.tpLe (w.removeSocket h) w := by
  unfold World.removeSocket
  cases hg : w.get h with
  | none => exact World.tpLe_refl w
  | some s =>
    dsimp only
    by_cases hm : h ∈ w.mainList ∨ h ∈ w.closingList
    · rw [if_pos hm]
      intro k sk hk
      exact World.tpLe_set w h s { s with id := 0 } hg rfl (Or.inl rfl) k sk hk
    · rw [if_neg hm]
      exact World.tpLe_refl w

theorem World.tpLe_destroyLocal (w : World) (h : Nat) :
    World.tpLe (w.destroyLocal h) w := by
  unfold World.destroyLocal
  cases hg : w.get h with
  | none => exact World.tpLe_refl w
  | some s =>
    dsimp only
    have tAll : World.tpLe (((w.emit (.fdeRemove h)).removeSocket h).free h) w :=
      World.tpLe_trans (World.tpLe_free _ h)
        (World.tpLe_trans (World.tpLe_removeSocket _ h) (World.tpLe_emit w _))
    by_cases he : s.exitOnClose = true
    · rw [if_pos he]
      exact World.tpLe_trans (World.tpLe_emit _ _) tAll
    · rw [if_neg he]
      exact tAll

theorem World.tpLe_localCloseNoPeer (w : World) (h : Nat) :
    World.tpLe (w.localCloseNoPeer h) w := by
  unfold World.localCloseNoPeer
  cases hg : w.get h with
  | none => exact World.tpLe_refl w
  | some s =>
    dsimp only
    split
    · exact World.tpLe_destroyLocal w h
    · intro k sk hk
      have t1 : World.tpLe (w.set h { s with closing := true, readArmed := false }) w :=
        World.tpLe_set w h s _ hg rfl (Or.inl rfl)
      have t2 : World.tpLe
          (((w.set h { s with closing := true, readArmed := false }).emit
            (.fdeDelRead h)).removeSocket h) w :=
        World.tpLe_trans (World.tpLe_removeSocket _ h)
          (World.tpLe_trans (World.tpLe_emit _ _) t1)
      exact t2 k sk hk

theorem World.tpLe_shutdownSock (w : World) (h : Nat) :
    World.tpLe (w.shutdownSock h) w := by
  unfold World.shutdownSock
  cases hg : w.get h with
  | none => exact World.tpLe_refl w
  | some s =>
    dsimp only
    cases hsf : s.shutdownFn with
    | noneS => exact World.tpLe_refl w
    | remoteS => exact World.tpLe_emit w _

theorem World.tpLe_closePeerDetached (w : World) (h : Nat) :
    World.tpLe (w.closePeerDetached h) w := by
  unfold World.closePeerDetached
  cases hg : w.get h with
  | none => exact World.tpLe_refl w
  | some s =>
    dsimp only
    cases hcf : s.closeFn with
    | localC => exact World.tpLe_localCloseNoPeer w h
    | localCNotify =>
      exact World.tpLe_trans (World.tpLe_localCloseNoPeer _ h)
        (World.tpLe_trans (World.tpLe_emit _ _)
          (World.tpLe_set w h s _ hg rfl (Or.inl rfl)))
    | remoteC => exact World.tpLe_free w h
    | smartC => exact World.tpLe_free w h

theorem World.tpLe_localCloseBody (w : World) (h : Nat) :
    World.tpLe (w.localCloseBody h) w := by
  unfold World.localCloseBody
  cases hg : w.get h with
  | none => exact World.tpLe_refl w
  | some s =>
    dsimp only
    cases hp : s.peer with
    | none => exact World.tpLe_localCloseNoPeer w h
    | some hq =>
      dsimp only
      have t1 : World.tpLe (w.shutdownSock hq) w := World.tpLe_shutdownSock w hq
      cases hq2 : (w.shutdownSock hq).get hq with
      | none =>
        dsimp only
        have t2 : World.tpLe ((w.shutdownSock hq).closePeerDetached hq) w :=
          World.tpLe_trans (World.tpLe_closePeerDetached _ hq) t1
        cases hg2 : ((w.shutdownSock hq).closePeerDetached hq).get h with
        | none =>
          dsimp only
          exact World.tpLe_trans (World.tpLe_localCloseNoPeer _ h) t2
        | some s2 =>
          dsimp only
          exact World.tpLe_trans (World.tpLe_localCloseNoPeer _ h)
            (World.tpLe_trans (World.tpLe_set _ h s2 _ hg2 rfl (Or.inr rfl)) t2)
      | some q =>
        dsimp only
        have t2 : World.tpLe
            ((w.shutdownSock hq).set hq { q with peer := none }) w :=
          World.tpLe_trans (World.tpLe_set _ hq q _ hq2 rfl (Or.inr rfl)) t1
        have t3 : World.tpLe
            (((w.shutdownSock hq).set hq { q with peer := none }).closePeerDetached hq) w :=
          World.tpLe_trans (World.tpLe_closePeerDetached _ hq) t2
        cases hg2 : (((w.shutdownSock hq).set hq { q with peer := none }).closePeerDetached hq).get h with
        | none =>
          dsimp only
          exact World.tpLe_trans (World.tpLe_localCloseNoPeer _ h) t3
        | some s2 =>
          dsimp only
          exact World.tpLe_trans (World.tpLe_localCloseNoPeer _ h)
            (World.tpLe_trans (World.tpLe_set _ h s2 _ hg2 rfl (Or.inr rfl)) t3)

theorem World.tpLe_closeSock (w : World) (h : Nat) :
    World.tpLe (w.closeSock h) w := by
  unfold World.closeSock
  cases hg : w.get h with
  | none => exact World.tpLe_refl w
  | some s =>
    dsimp only
    cases hcf : s.closeFn with
    | localC => exact World.tpLe_localCloseBody w h
    | localCNotify =>
      exact World.tpLe_trans (World.tpLe_localCloseBody _ h)
        (World.tpLe_trans (World.tpLe_emit _ _)
          (World.tpLe_set w h s _ hg rfl (Or.inl rfl)))
    | remoteC =>
      cases hp : s.peer with
      | none => exact World.tpLe_free w h
      | some hq =>
        dsimp only
        cases hq2 : w.get hq with
        | none =>
          dsimp only
          exact World.tpLe_trans (World.tpLe_free _ h)
            (World.tpLe_closePeerDetached w hq)
        | some q =>
          dsimp only
          exact World.tpLe_trans (World.tpLe_free _ h)
            (World.tpLe_trans (World.tpLe_closePeerDetached _ hq)
              (World.tpLe_set w hq q _ hq2 rfl (Or.inr rfl)))
    | smartC =>
      cases hp : s.peer with
      | none => exact World.tpLe_free w h
      | some hq =>
        dsimp only
        cases hq2 : w.get hq with
        | none =>
          dsimp only
          exact World.tpLe_trans (World.tpLe_free _ h)
            (World.tpLe_closePeerDetached w hq)
        | some q =>
          dsimp only
          exact World.tpLe_trans (World.tpLe_free _ h)
            (World.tpLe_trans (World.tpLe_closePeerDetached _ hq)
              (World.tpLe_set w hq q _ hq2 rfl (Or.inr rfl)))

/-- The close path only ever removes handles from the main list. -/
theorem World.removeSocket_sublist (w : World) (h : Nat) :
    (w.removeSocket h).mainList.Sublist w.mainList := by
  unfold World.removeSocket
  cases hg : w.get h with
  | none => exact List.Sublist.refl _
  | some s =>
    dsimp only
    by_cases hm : h ∈ w.mainList ∨ h ∈ w.closingList
    · rw [if_pos hm]
      exact List.erase_sublist h w.mainList
    · rw [if_neg hm]

theorem World.destroyLocal_sublist (w : World) (h : Nat) :
    (w.destroyLocal h).mainList.Sublist w.mainList := by
  unfold World.destroyLocal
  cases hg : w.get h with
  | none => exact List.Sublist.refl _
  | some s =>
    dsimp only
    by_cases he : s.exitOnClose = true
    · rw [if_pos he]
      exact World.removeSocket_sublist _ h
    · rw [if_neg he]
      exact World.removeSocket_sublist _ h

theorem World.localCloseNoPeer_sublist (w : World) (h : Nat) :
    (w.localCloseNoPeer h).mainList.Sublist w.mainList := by
  unfold World.localCloseNoPeer
  cases hg : w.get h with
  | none => exact List.Sublist.refl _
  | some s =>
    dsimp only
    split
    · exact World.destroyLocal_sublist w h
    · exact World.removeSocket_sublist _ h

theorem World.shutdownSock_mainList (w : World) (h : Nat) :
    (w.shutdownSock h).mainList = w.mainList := by
  unfold World.shutdownSock
  cases hg : w.get h with
  | none => rfl
  | some s =>
    dsimp only
    cases hsf : s.shutdownFn with
    | noneS => rfl
    | remoteS => rfl

theorem World.closePeerDetached_sublist (w : World) (h : Nat) :
    (w.closePeerDetached h).mainList.Sublist w.mainList := by
  unfold World.closePeerDetached
  cases hg : w.get h with
  | none => exact List.Sublist.refl _
  | some s =>
    dsimp only
    cases hcf : s.closeFn with
    | localC => exact World.localCloseNoPeer_sublist w h
    | localCNotify => exact World.localCloseNoPeer_sublist _ h
    | remoteC => exact List.Sublist.refl _
    | smartC => exact List.Sublist.refl _

theorem World.localCloseBody_sublist (w : World) (h : Nat) :
    (w.localCloseBody h).mainList.Sublist w.mainList := by
  unfold World.localCloseBody
  cases hg : w.get h with
  | none => exact List.Sublist.refl _
  | some s =>
    dsimp only
    cases hp : s.peer with
    | none => exact World.localCloseNoPeer_sublist w h
    | some hq =>
      dsimp only
      have e1 : (w.shutdownSock hq).mainList = w.mainList :=
        World.shutdownSock_mainList w hq
      cases hq2 : (w.shutdownSock hq).get hq with
      | none =>
        dsimp only
        have t2 : ((w.shutdownSock hq).closePeerDetached hq).mainList.Sublist
            w.mainList := by
          rw [← e1]
          exact World.closePeerDetached_sublist _ hq
        cases hg2 : ((w.shutdownSock hq).closePeerDetached hq).get h with
        | none =>
          dsimp only
          exact (World.localCloseNoPeer_sublist _ h).trans t2
        | some s2 =>
          dsimp only
          exact (World.localCloseNoPeer_sublist _ h).trans t2
      | some q =>
        dsimp only
        have t3 : (((w.shutdownSock hq).set hq { q with peer := none }).closePeerDetached hq).mainList.Sublist
            w.mainList := by
          rw [← e1]
          exact World.closePeerDetached_sublist _ hq
        cases hg2 : (((w.shutdownSock hq).set hq { q with peer := none }).closePeerDetached hq).get h with
        | none =>
          dsimp only
          exact (World.localCloseNoPeer_sublist _ h).trans t3
        | some s2 =>
          dsimp only
          exact (World.localCloseNoPeer_sublist _ h).trans t3

theorem World.closeSock_sublist (w : World) (h : Nat) :
    (w.closeSock h).mainList.Sublist w.mainList := by
  unfold World.closeSock
  cases hg : w.get h with
  | none => exact List.Sublist.refl _
  | some s =>
    dsimp only
    cases hcf : s.closeFn with
    | localC => exact World.localCloseBody_sublist w h
    | localCNotify => exact World.localCloseBody_sublist _ h
    | remoteC =>
      cases hp : s.peer with
      | none => exact List.Sublist.refl _
      | some hq =>
        dsimp only
        cases hq2 : w.get hq with
        | none =>
          dsimp only
          exact World.closePeerDetached_sublist w hq
        | some q =>
          dsimp only
          exact World.closePeerDetached_sublist _ hq
    | smartC =>
      cases hp : s.peer with
      | none => exact List.Sublist.refl _
      | some hq =>
        dsimp only
        cases hq2 : w.get hq with
        | none =>
          dsimp only
          exact World.closePeerDetached_sublist w hq
        | some q =>
          dsimp only
          exact World.closePeerDetached_sublist _ hq

/-- `remove_socket` on a registered handle takes it out of the main list. -/
theorem World.removeSocket_self_not_mem (w : World) (h : Nat)
    (hnd : w.mainList.Nodup) (s : ASocket) (hg : w.get h = some s) :
    h ∉ (w.removeSocket h).mainList := by
  unfold World.removeSocket
  rw [hg]
  dsimp only
  by_cases hm : h ∈ w.mainList ∨ h ∈ w.closingList
  · rw [if_pos hm]
    intro hmem
    exact ((List.Nodup.mem_erase_iff hnd).mp hmem).1 rfl
  · rw [if_neg hm]
    intro hmem
    exact hm (Or.inl hmem)

/-- After the destroy-or-defer decision, the handle is freed or off the main
list. -/
theorem World.localCloseNoPeer_c (w : World) (h : Nat)
    (hnd : w.mainList.Nodup) :
    (w.localCloseNoPeer h).get h = none ∨
      h ∉ (w.localCloseNoPeer h).mainList := by
  unfold World.localCloseNoPeer
  cases hg : w.get h with
  | none => exact Or.inl hg
  | some s =>
    dsimp only
    split
    · exact Or.inl (World.destroyLocal_get_self w h s hg)
    · right
      have hg2 : ((w.set h { s with closing := true, readArmed := false }).emit
          (.fdeDelRead h)).get h =
          some { s with closing := true, readArmed := false } := by
        rw [World.get_emit, World.get_set_eq, hg]
        rfl
      exact World.removeSocket_self_not_mem
        ((w.set h { s with closing := true, readArmed := false }).emit
          (.fdeDelRead h)) h hnd _ hg2

/-- `local_socket_close` leaves its own handle freed or off the main list. -/
theorem World.localCloseBody_c (w : World) (h : Nat)
    (hnd : w.mainList.Nodup) :
    (w.localCloseBody h).get h = none ∨
      h ∉ (w.localCloseBody h).mainList := by
  unfold World.localCloseBody
  cases hg : w.get h with
  | none => exact Or.inl hg
  | some s =>
    dsimp only
    cases hp : s.peer with
    | none => exact World.localCloseNoPeer_c w h hnd
    | some hq =>
      dsimp only
      have e1 : (w.shutdownSock hq).mainList = w.mainList :=
        World.shutdownSock_mainList w hq
      cases hq2 : (w.shutdownSock hq).get hq with
      | none =>
        dsimp only
        have hnd2 : ((w.shutdownSock hq).closePeerDetached hq).mainList.Nodup := by
          refine List.Nodup.sublist ?_ hnd
          rw [← e1]
          exact World.closePeerDetached_sublist _ hq
        cases hg2 : ((w.shutdownSock hq).closePeerDetached hq).get h with
        | none =>
          dsimp only
          left
          unfold World.localCloseNoPeer
          rw [hg2]
          exact hg2
        | some s2 =>
          dsimp only
          exact World.localCloseNoPeer_c _ h hnd2
      | some q =>
        dsimp only
        have hnd3 : (((w.shutdownSock hq).set hq
            { q with peer := none }).closePeerDetached hq).mainList.Nodup := by
          refine List.Nodup.sublist ?_ hnd
          rw [← e1]
          exact World.closePeerDetached_sublist _ hq
        cases hg2 : (((w.shutdownSock hq).set hq
            { q with peer := none }).closePeerDetached hq).get h with
        | none =>
          dsimp only
          left
          unfold World.localCloseNoPeer
          rw [hg2]
          exact hg2
        | some s2 =>
          dsimp only
          exact World.localCloseNoPeer_c _ h hnd3

/-- `s->close(s)` leaves the closed handle freed or off the main list. -/
theorem World.closeSock_c (w : World) (h : Nat) (hnd : w.mainList.Nodup) :
    (w.closeSock h).get h = none ∨ h ∉ (w.closeSock h).mainList := by
  unfold World.closeSock
  cases hg : w.get h with
  | none => exact Or.inl hg
  | some s =>
    dsimp only
    cases hcf : s.closeFn with
    | localC => exact World.localCloseBody_c w h hnd
    | localCNotify => exact World.localCloseBody_c _ h hnd
    | remoteC =>
      cases hp : s.peer with
      | none => exact Or.inl (World.get_free_eq w h)
      | some hq =>
        dsimp only
        cases hq2 : w.get hq with
        | none =>
          dsimp only
          exact Or.inl (World.get_free_eq _ h)
        | some q =>
          dsimp only
          exact Or.inl (World.get_free_eq _ h)
    | smartC =>
      cases hp : s.peer with
      | none => exact Or.inl (World.get_free_eq w h)
      | some hq =>
        dsimp only
        cases hq2 : w.get hq with
        | none =>
          dsimp only
          exact Or.inl (World.get_free_eq _ h)
        | some q =>
          dsimp only
          exact Or.inl (World.get_free_eq _ h)

/-- A freed handle matches no transport. -/
theorem World.matchesT_none (w : World) (t h : Nat) (hg : w.get h = none) :
    w.matchesT t h = false := by
  unfold World.matchesT
  rw [hg]

/-- `matchesT` only switches off along the close paths: weakening the world
cannot make an endpoint reference a transport it did not reference before. -/
theorem World.matchesT_mono {w2 w : World} (hle : World.tpLe w2 w) (t h : Nat)
    (hm : w2.matchesT t h = true) : w.matchesT t h = true := by
  unfold World.matchesT at hm ⊢
  cases h2 : w2.get h with
  | none =>
    rw [h2] at hm
    dsimp only at hm
    exact Bool.noConfusion hm
  | some s2 =>
    rw [h2] at hm
    dsimp only at hm
    obtain ⟨s, hg, ht, hp⟩ := hle h s2 h2
    rw [hg]
    dsimp only
    rw [Bool.or_eq_true] at hm ⊢
    cases hm with
    | inl h1 =>
      left
      rw [← ht]
      exact h1
    | inr h1 =>
      right
      split at h1
      case h_1 q2 heq =>
        rw [Option.bind_eq_some] at heq
        obtain ⟨k, hpe, hq2⟩ := heq
        obtain ⟨q, hqg, hqt, _⟩ := hle k q2 hq2
        have hsp : s.peer = some k := by
          cases hp with
          | inl e =>
            rw [← e]
            exact hpe
          | inr e =>
            rw [e] at hpe
            exact Option.noConfusion hpe
        rw [hsp]
        rw [show Option.bind (some k) w.get = w.get k from rfl, hqg]
        show (q.transport == some t) = true
        rw [← hqt]
        exact h1
      case h_2 heq =>
        exact Bool.noConfusion h1

/-- Closing a matching endpoint strictly decreases the number of matching
endpoints on the main list. -/
theorem World.countP_closeSock_lt (w : World) (t h : Nat)
    (hnd : w.mainList.Nodup) (hmem : h ∈ w.mainList)
    (hmt : w.matchesT t h = true) :
    List.countP (fun k => (w.closeSock h).matchesT t k)
      (w.closeSock h).mainList <
    List.countP (fun k => w.matchesT t k) w.mainList := by
  have hsub : (w.closeSock h).mainList.Sublist w.mainList :=
    World.closeSock_sublist w h
  have hle : World.tpLe (w.closeSock h) w := World.tpLe_closeSock w h
  have hcase := World.closeSock_c w h hnd
  have e0 : List.countP (fun k => (w.closeSock h).matchesT t k)
      (w.closeSock h).mainList =
      List.countP (fun k => (w.closeSock h).matchesT t k)
        ((w.closeSock h).mainList.erase h) := by
    cases hcase with
    | inl hnone =>
      by_cases hm2 : h ∈ (w.closeSock h).mainList
      · have hperm := List.perm_cons_erase hm2
        rw [hperm.countP_eq, List.countP_cons]
        simp [World.matchesT_none _ t h hnone]
      · rw [List.erase_of_not_mem hm2]
    | inr hnm => rw [List.erase_of_not_mem hnm]
  have e2 : List.countP (fun k => (w.closeSock h).matchesT t k)
      ((w.closeSock h).mainList.erase h) ≤
      List.countP (fun k => w.matchesT t k)
        ((w.closeSock h).mainList.erase h) :=
    List.countP_mono_left (fun k _ hk => World.matchesT_mono hle t k hk)
  have e3 : List.countP (fun k => w.matchesT t k)
      ((w.closeSock h).mainList.erase h) ≤
      List.countP (fun k => w.matchesT t k) (w.mainList.erase h) :=
    (List.Sublist.erase h hsub).countP_le _
  have e4 : List.countP (fun k => w.matchesT t k) w.mainList =
      List.countP (fun k => w.matchesT t k) (w.mainList.erase h) + 1 := by
    have hperm := List.perm_cons_erase hmem
    rw [hperm.countP_eq, List.countP_cons]
    simp [hmt]
  rw [e0]
  omega

/-- Termination of the `goto restart` loop: the count of matching endpoints
bounds the number of iterations. -/
theorem closeAllFuel_total (t : Nat) : ∀ (fuel : Nat) (w : World),
    w.mainList.Nodup →
    List.countP (fun k => w.matchesT t k) w.mainList ≤ fuel →
    ∃ w2, closeAllFuel fuel w t = some w2 := by
  intro fuel
  induction fuel with
  | zero =>
    intro w hnd hcnt
    cases hf : w.findCloseTarget t with
    | none =>
      refine ⟨w, ?_⟩
      unfold closeAllFuel
      rw [hf]
    | some h =>
      exfalso
      have hf2 : w.mainList.find? (fun k => w.matchesT t k) = some h := hf
      have hmem := List.mem_of_find?_eq_some hf2
      have hp := List.find?_some hf2
      have hpos : 0 < List.countP (fun k => w.matchesT t k) w.mainList :=
        List.countP_pos_iff.mpr ⟨h, hmem, hp⟩
      omega
  | succ n ih =>
    intro w hnd hcnt
    cases hf : w.findCloseTarget t with
    | none =>
      refine ⟨w, ?_⟩
      unfold closeAllFuel
      rw [hf]
    | some h =>
      have hf2 : w.mainList.find? (fun k => w.matchesT t k) = some h := hf
      have hmem := List.mem_of_find?_eq_some hf2
      have hp := List.find?_some hf2
      have hnd2 : (w.closeSock h).mainList.Nodup :=
        List.Nodup.sublist (World.closeSock_sublist w h) hnd
      have hlt := World.countP_closeSock_lt w t h hnd hmem hp
      obtain ⟨w2, hr⟩ := ih (w.closeSock h) hnd2 (by omega)
      refine ⟨w2, ?_⟩
      unfold closeAllFuel
      rw [hf]
      exact hr

/-- When the loop exits, no matching endpoint is left to find. -/
theorem closeAllFuel_post (t : Nat) : ∀ (fuel : Nat) (w w2 : World),
    closeAllFuel fuel w t = some w2 → w2.findCloseTarget t = none := by
  intro fuel
  induction fuel with
  | zero =>
    intro w w2 hr
    unfold closeAllFuel at hr
    cases hf : w.findCloseTarget t with
    | none =>
      rw [hf] at hr
      have hw : w = w2 := Option.some.inj hr
      exact hw ▸ hf
    | some h =>
      rw [hf] at hr
      exact Option.noConfusion hr
  | succ n ih =>
    intro w w2 hr
    unfold closeAllFuel at hr
    cases hf : w.findCloseTarget t with
    | none =>
      rw [hf] at hr
      have hw : w = w2 := Option.some.inj hr
      exact hw ▸ hf
    | some h =>
      rw [hf] at hr
      exact ih (w.closeSock h) w2 hr

/-- C7: when the main list holds no duplicate handles, `close_all_sockets(t)`
returns within its iteration bound (every close strictly decreases the number
of endpoints matching `t`, restarting the scan each time), and afterwards no
endpoint remaining on the main list references `t` directly or through its
peer. -/
theorem c7_close_all (w : World) (t : Nat) (hnd : w.mainList.Nodup) :
    (w.closeAllSockets t).isSome = true ∧
    ∀ w2, w.closeAllSockets t = some w2 →
      ∀ h, h ∈ w2.mainList → w2.matchesT t h = false := by
  constructor
  · obtain ⟨w2, hr⟩ := closeAllFuel_total t w.mainList.length w hnd
      (List.countP_le_length _)
    unfold World.closeAllSockets
    rw [hr]
    rfl
  · intro w2 hr h hmem
    have hfn := closeAllFuel_post t w.mainList.length w w2 hr
    have hfn2 : w2.mainList.find? (fun k => w2.matchesT t k) = none := hfn
    have hno := List.find?_eq_none.mp hfn2 h hmem
    cases hb : w2.matchesT t h with
    | false => rfl
    | true => exact absurd hb hno

/-- A local endpoint attached to transport 5: closed by `close_all_sockets 5`. -/
def exSockT5 : ASocket :=
  { exLocalNP with id := 11, transport := some 5 }

/-- A local endpoint on another transport: it survives `close_all_sockets 5`. -/
def exSockT7 : ASocket :=
  { exLocalNP with id := 12, transport := some 7 }

/-- A world with one endpoint on the drained transport and one on another. -/
def exWorldC7 : World :=
  { sock := [(0, exSockT5), (1, exSockT7)], mainList := [0, 1],
    closingList := [], trace := [] }

/-- Witness for C7: `close_all_sockets 5` returns, and the surviving endpoint
(handle 1, on transport 7) no longer matches transport 5. -/
theorem c7_witness :
    (exWorldC7.closeAllSockets 5).isSome = true ∧
    ((exWorldC7.closeAllSockets 5).getD exWorldC7).matchesT 5 1 = false :=
  ⟨(c7_close_all exWorldC7 5 (by decide)).1,
   (c7_close_all exWorldC7 5 (by decide)).2
     ((exWorldC7.closeAllSockets 5).getD exWorldC7) (by decide) 1 (by decide)⟩
